import Mathlib

/-!
# SmoothStepper (ESP32): a shallow embedding of the motion engine

The C++ class `SmoothStepper` (`lib/SmoothStepper/src/SmoothStepper.cpp`, `src/SmoothStepper.h`)
is embedded as a record of its fields together with one Lean function per member function.

Modelling conventions:

* `int` and `long` fields are mathematical integers (`Int`).  Signed overflow is undefined
  behaviour in C++, so the embedding describes the executions in which it does not occur.
  The two places of the source that rely on *unsigned* 32-bit wrap-around (`now - last_step_time`
  and `micros() / 1000 - start_time / 1000`) carry an explicit reduction modulo `2 ^ 32` (`u32`).
* `float` and `double` values are exact rationals (`ℚ`); rounding is not modelled.  A conversion
  from a floating value to `int`/`long` is truncation toward zero (`truncToInt`); a value that
  does not fit the target type (undefined in C++) is kept as it is.
* Integer `/` and `%` are the truncating `Int.tdiv` and `Int.tmod`; a zero divisor (undefined
  in C++) gives the value Lean assigns.
* `micros()` is an input: every function that reads the clock takes one argument per reading,
  in program order.
* `digitalWrite(pin, level)` appends `(pin, level)` to the log `written` (`HIGH` is `true`).
* Commands issued from the application thread are interleaved with the step loop at the
  granularity of the functions below.
-/

/-- Conversion of a floating value to `int` or `long`: truncation toward zero. -/
def truncToInt (q : ℚ) : Int := Int.tdiv q.num (q.den : Int)

/-- Reduction of an integer to the range of `unsigned long` (32 bits on the ESP32). -/
def u32 (x : Int) : Int := x % 4294967296

/-- Two-complement reduction of an integer to the range of a 32-bit `int`. -/
def wrap32 (x : Int) : Int := (x + 2147483648) % 4294967296 - 2147483648

/-- The fields of `class SmoothStepper` (header lines 153-185), plus the log of pin writes. -/
structure SmoothStepper where
  direction : Int
  step_to_be : Int
  current_step : Int
  steps_to_move : Int
  number_of_steps : Int
  smoothActivated : Bool
  vmin : ℚ
  current_speed : ℚ
  vmax : ℚ
  previousSpeed : ℚ
  acc : ℚ
  stepVmaxToVmin : Int
  pin_count : Int
  step_number : Int
  deccelerationAtStep : Int
  start_time : Int
  stopping : Bool
  newDelay : ℚ
  newSpeed : ℚ
  newDelay_last : ℚ
  motor_pin_1 : Int
  motor_pin_2 : Int
  motor_pin_3 : Int
  motor_pin_4 : Int
  motor_pin_5 : Int
  written : List (Int × Bool)
deriving DecidableEq

namespace SmoothStepper

/-- The in-class initialisers of the header, applied over a record `junk` that supplies the
values of the members no initialiser and no constructor sets. -/
def fieldDefaults (junk : SmoothStepper) : SmoothStepper :=
  { junk with
    direction := 0, step_to_be := 0, current_step := 0, steps_to_move := 0,
    smoothActivated := false, current_speed := 0, previousSpeed := 0,
    step_number := 0, stopping := false, newDelay := 977 / 100, newSpeed := 0,
    newDelay_last := 977 / 100, written := [] }

/-- Two-wire constructor (lines 85-106). -/
def new2 (junk : SmoothStepper) (number_of_steps motor_pin_1 motor_pin_2 : Int) : SmoothStepper :=
  { fieldDefaults junk with
    step_number := 0, number_of_steps := number_of_steps,
    motor_pin_1 := motor_pin_1, motor_pin_2 := motor_pin_2,
    motor_pin_3 := 0, motor_pin_4 := 0, motor_pin_5 := 0, pin_count := 2 }

/-- Four-wire constructor (lines 112-136). -/
def new4 (junk : SmoothStepper) (number_of_steps motor_pin_1 motor_pin_2 motor_pin_3
    motor_pin_4 : Int) : SmoothStepper :=
  { fieldDefaults junk with
    step_number := 0, number_of_steps := number_of_steps,
    motor_pin_1 := motor_pin_1, motor_pin_2 := motor_pin_2,
    motor_pin_3 := motor_pin_3, motor_pin_4 := motor_pin_4,
    motor_pin_5 := 0, pin_count := 4 }

/-- Five-wire constructor (lines 142-165). -/
def new5 (junk : SmoothStepper) (number_of_steps motor_pin_1 motor_pin_2 motor_pin_3
    motor_pin_4 motor_pin_5 : Int) : SmoothStepper :=
  { fieldDefaults junk with
    step_number := 0, number_of_steps := number_of_steps,
    motor_pin_1 := motor_pin_1, motor_pin_2 := motor_pin_2,
    motor_pin_3 := motor_pin_3, motor_pin_4 := motor_pin_4,
    motor_pin_5 := motor_pin_5, pin_count := 5 }

/-- One call `digitalWrite(pin, level)`. -/
def digitalWrite (s : SmoothStepper) (pin : Int) (level : Bool) : SmoothStepper :=
  { s with written := s.written ++ [(pin, level)] }

/-- A run of `digitalWrite` calls, in order. -/
def writePins (s : SmoothStepper) (ws : List (Int × Bool)) : SmoothStepper :=
  ws.foldl (fun acc w => digitalWrite acc w.1 w.2) s

/-- The `switch` of the two-wire block of `stepMotor` (lines 433-450). -/
def stepMotor2 (s : SmoothStepper) (thisStep : Int) : SmoothStepper :=
  if thisStep = 0 then writePins s [(s.motor_pin_1, false), (s.motor_pin_2, true)]
  else if thisStep = 1 then writePins s [(s.motor_pin_1, true), (s.motor_pin_2, true)]
  else if thisStep = 2 then writePins s [(s.motor_pin_1, true), (s.motor_pin_2, false)]
  else if thisStep = 3 then writePins s [(s.motor_pin_1, false), (s.motor_pin_2, false)]
  else s

/-- The `switch` of the four-wire block of `stepMotor` (lines 453-478). -/
def stepMotor4 (s : SmoothStepper) (thisStep : Int) : SmoothStepper :=
  if thisStep = 0 then
    writePins s [(s.motor_pin_1, true), (s.motor_pin_2, false), (s.motor_pin_3, true),
      (s.motor_pin_4, false)]
  else if thisStep = 1 then
    writePins s [(s.motor_pin_1, false), (s.motor_pin_2, true), (s.motor_pin_3, true),
      (s.motor_pin_4, false)]
  else if thisStep = 2 then
    writePins s [(s.motor_pin_1, false), (s.motor_pin_2, true), (s.motor_pin_3, false),
      (s.motor_pin_4, true)]
  else if thisStep = 3 then
    writePins s [(s.motor_pin_1, true), (s.motor_pin_2, false), (s.motor_pin_3, false),
      (s.motor_pin_4, true)]
  else s

/-- The `switch` of the five-wire block of `stepMotor` (lines 482-553). -/
def stepMotor5 (s : SmoothStepper) (thisStep : Int) : SmoothStepper :=
  if thisStep = 0 then
    writePins s [(s.motor_pin_1, false), (s.motor_pin_2, true), (s.motor_pin_3, true),
      (s.motor_pin_4, false), (s.motor_pin_5, true)]
  else if thisStep = 1 then
    writePins s [(s.motor_pin_1, false), (s.motor_pin_2, true), (s.motor_pin_3, false),
      (s.motor_pin_4, false), (s.motor_pin_5, true)]
  else if thisStep = 2 then
    writePins s [(s.motor_pin_1, false), (s.motor_pin_2, true), (s.motor_pin_3, false),
      (s.motor_pin_4, true), (s.motor_pin_5, true)]
  else if thisStep = 3 then
    writePins s [(s.motor_pin_1, false), (s.motor_pin_2, true), (s.motor_pin_3, false),
      (s.motor_pin_4, true), (s.motor_pin_5, false)]
  else if thisStep = 4 then
    writePins s [(s.motor_pin_1, true), (s.motor_pin_2, true), (s.motor_pin_3, false),
      (s.motor_pin_4, true), (s.motor_pin_5, false)]
  else if thisStep = 5 then
    writePins s [(s.motor_pin_1, true), (s.motor_pin_2, false), (s.motor_pin_3, false),
      (s.motor_pin_4, true), (s.motor_pin_5, false)]
  else if thisStep = 6 then
    writePins s [(s.motor_pin_1, true), (s.motor_pin_2, false), (s.motor_pin_3, true),
      (s.motor_pin_4, true), (s.motor_pin_5, false)]
  else if thisStep = 7 then
    writePins s [(s.motor_pin_1, true), (s.motor_pin_2, false), (s.motor_pin_3, true),
      (s.motor_pin_4, false), (s.motor_pin_5, false)]
  else if thisStep = 8 then
    writePins s [(s.motor_pin_1, true), (s.motor_pin_2, false), (s.motor_pin_3, true),
      (s.motor_pin_4, false), (s.motor_pin_5, true)]
  else if thisStep = 9 then
    writePins s [(s.motor_pin_1, false), (s.motor_pin_2, false), (s.motor_pin_3, true),
      (s.motor_pin_4, false), (s.motor_pin_5, true)]
  else s

/-- Member `stepMotor` (lines 431-555): three consecutive `if (pin_count == k)` blocks. -/
def stepMotor (s : SmoothStepper) (thisStep : Int) : SmoothStepper :=
  let s := if s.pin_count = 2 then stepMotor2 s thisStep else s
  let s := if s.pin_count = 4 then stepMotor4 s thisStep else s
  if s.pin_count = 5 then stepMotor5 s thisStep else s

/-- Member `doStep` (lines 228-246). -/
def doStep (s : SmoothStepper) : SmoothStepper :=
  let s := { s with current_speed := s.newSpeed }
  let s :=
    if s.direction = 1 then
      let s := { s with step_number := s.step_number + 1 }
      let s := { s with current_step := s.current_step + 1 }
      if s.step_number = s.number_of_steps then { s with step_number := 0 } else s
    else
      let s := if s.step_number = 0 then { s with step_number := s.number_of_steps } else s
      let s := { s with step_number := s.step_number - 1 }
      { s with current_step := s.current_step - 1 }
  stepMotor s (Int.tmod s.step_number s.pin_count)

/-- Member `calculateDelay` (lines 248-267); `micros` is the clock reading of line 255.
Returns the delay and the updated object. -/
def calculateDelay (s : SmoothStepper) (micros : Nat) : ℚ × SmoothStepper :=
  if s.smoothActivated = false then (1 / s.vmin, s)
  else
    let s := { s with newDelay_last := s.newDelay }
    let s := { s with previousSpeed := s.newSpeed }
    let ti : ℚ := ((u32 (((micros / 1000 : Nat) : Int) - Int.tdiv s.start_time 1000) : Int) : ℚ)
    let s :=
      if s.stopping = true then { s with newSpeed := -s.acc * ti + s.vmax }
      else { s with newSpeed := s.acc * ti + s.vmin }
    let s := if s.newSpeed < s.vmin then { s with newSpeed := s.vmin } else s
    let s := if s.newSpeed > s.vmax then { s with newSpeed := s.vmax } else s
    (1 / s.newSpeed, s)

/-- Member `calculateStartTime` (lines 323-341); `micros` is the clock reading of line 340.
Returns the `double` result and the updated object. -/
def calculateStartTime (s : SmoothStepper) (micros : Nat) : ℚ × SmoothStepper :=
  if s.smoothActivated = false then (0, s)
  else
    let s := if s.newSpeed = 0 then { s with newSpeed := s.vmin } else s
    let t_current : ℚ :=
      if s.stopping = true then (s.newSpeed - s.vmax) / -s.acc + 1 / s.previousSpeed
      else (s.newSpeed - s.vmin) / s.acc + 1 / s.previousSpeed
    let t_current : ℚ := if t_current < 0 then 0 else t_current
    ((micros : ℚ) - t_current * 1000, s)

/-- The two statements `start_time = calculateStartTime(); newDelay = calculateDelay();`
(lines 284-285 and 316-317); `t1`, `t2` are the two clock readings. -/
def restartRamp (s : SmoothStepper) (t1 t2 : Nat) : SmoothStepper :=
  let s := { (calculateStartTime s t1).2 with start_time := truncToInt (calculateStartTime s t1).1 }
  { (calculateDelay s t2).2 with newDelay := (calculateDelay s t2).1 }

/-- Lines 289-315 of `calculStrategy`: the choice of `deccelerationAtStep`. -/
def planLeg (s : SmoothStepper) (stepToMove : Int) : SmoothStepper :=
  if s.smoothActivated = false then
    let s :=
      if s.direction = 1 then { s with deccelerationAtStep := s.current_step + stepToMove - 1 }
      else s
    if s.direction = -1 then { s with deccelerationAtStep := s.current_step - stepToMove + 1 }
    else s
  else
    let timeToVmin : ℚ := (s.vmin - s.current_speed) / -s.acc
    let timeToVmax : ℚ := (s.vmax - s.current_speed) / s.acc
    let stepToVmin : Int :=
      truncToInt (-s.acc / 2 * timeToVmin ^ 2 + s.current_speed * timeToVmin + 1)
    let stepToVmax : Int :=
      truncToInt (s.acc / 2 * timeToVmax ^ 2 + s.current_speed * timeToVmax + 1)
    if |stepToMove| ≤ |stepToVmin| then
      let s := { s with deccelerationAtStep := s.current_step }
      { s with stopping := true }
    else
      let s := { s with stopping := false }
      let cases : Int := |stepToMove| - |stepToVmax| - |s.stepVmaxToVmin|
      if cases = 0 then
        let s :=
          if s.direction = 1 then
            { s with deccelerationAtStep := s.current_step + stepToVmax - 1 }
          else s
        if s.direction = -1 then
          { s with deccelerationAtStep := s.current_step - stepToVmax + 1 }
        else s
      else if cases > 0 then
        let s :=
          if s.direction = 1 then
            { s with deccelerationAtStep := s.step_to_be - s.stepVmaxToVmin - 1 }
          else s
        if s.direction = -1 then
          { s with deccelerationAtStep := s.step_to_be + s.stepVmaxToVmin + 1 }
        else s
      else
        let s :=
          { s with deccelerationAtStep := |Int.tdiv (|stepToMove| - |stepToVmin|) 2| }
        let s :=
          if s.direction = 1 then
            { s with deccelerationAtStep := s.current_step + s.deccelerationAtStep }
          else s
        if s.direction = -1 then
          { s with deccelerationAtStep := s.current_step - s.deccelerationAtStep }
        else s

/-- Member `calculStrategy` (lines 269-318); `t1` is the clock reading of the
`calculateStartTime` call it makes and `t2` that of the `calculateDelay` call. -/
def calculStrategy (s : SmoothStepper) (t1 t2 : Nat) : SmoothStepper :=
  let stepToMove : Int := s.step_to_be - s.current_step
  if stepToMove = 0 ∧ s.newSpeed = s.vmin then s
  else if stepToMove > 0 ∧ (s.direction = 0 ∨ s.smoothActivated = false) then
    restartRamp (planLeg { s with direction := 1 } stepToMove) t1 t2
  else if stepToMove < 0 ∧ (s.direction = 0 ∨ s.smoothActivated = false) then
    restartRamp (planLeg { s with direction := -1 } stepToMove) t1 t2
  else if (stepToMove > 0 ∧ s.direction = 1) ∨ (stepToMove < 0 ∧ s.direction = -1) then
    restartRamp (planLeg s stepToMove) t1 t2
  else
    restartRamp { s with stopping := true } t1 t2

/-- Member `isArrived` (lines 346-353). -/
def isArrived (s : SmoothStepper) : Int :=
  if s.step_to_be = s.current_step ∧ s.direction = 0 ∧ s.steps_to_move = 0 then 0 else 1

/-- Member `whatStepNumber` (line 366); `%` is the C remainder. -/
def whatStepNumber (s : SmoothStepper) : Int := Int.tmod s.current_step 2048

/-- Member `whatRotationNumber` (lines 371-373); `/` is the C quotient. -/
def whatRotationNumber (s : SmoothStepper) : Int := Int.tdiv s.current_step s.number_of_steps

/-- Member `goToOrigin` (lines 378-385). -/
def goToOrigin (s : SmoothStepper) (rotation_included : Bool) : SmoothStepper :=
  if rotation_included = true then { s with steps_to_move := s.steps_to_move - s.current_step }
  else { s with steps_to_move := s.steps_to_move - Int.tmod s.current_step 2048 }

/-- Member `accelerationDisable` (lines 387-397). -/
def accelerationDisable (s : SmoothStepper) (speed : ℚ) : SmoothStepper :=
  let s := { s with smoothActivated := false }
  let s :=
    if speed = 0 then { s with vmin := 1 / 10 }
    else { s with vmin := speed * (s.number_of_steps : ℚ) / 60 / 1000 }
  let s := { s with current_speed := s.vmin }
  { s with acc := 0 }

/-- Member `accelerationEnable` (lines 403-426): the returned `bool` and the updated object. -/
def accelerationEnable (s : SmoothStepper) (minSpeed maxSpeed : ℚ) (rampTime : Int) :
    Bool × SmoothStepper :=
  let s := { s with smoothActivated := true }
  if maxSpeed ≤ 0 ∨ rampTime ≤ 0 ∨ minSpeed ≤ 0 then (false, s)
  else
    let s := { s with vmin := minSpeed * (s.number_of_steps : ℚ) / 60 / 1000 }
    let s := { s with vmax := maxSpeed * (s.number_of_steps : ℚ) / 60 / 1000 }
    let s :=
      if s.current_speed > s.vmax then { s with current_speed := s.vmax }
      else if s.current_speed < s.vmin then { s with current_speed := s.vmin }
      else s
    let s := if s.previousSpeed = 0 then { s with previousSpeed := s.vmin } else s
    let s := { s with acc := (s.vmax - s.vmin) / (rampTime : ℚ) }
    let s :=
      { s with stepVmaxToVmin :=
          truncToInt (-s.acc / 2 * (rampTime : ℚ) ^ 2 + s.vmax * (rampTime : ℚ) + 1) }
    (true, s)

/-- Member `step` (lines 561-563). -/
def step (s : SmoothStepper) (number_of_steps : Int) : SmoothStepper :=
  { s with steps_to_move := s.steps_to_move + number_of_steps }

/-- Member `absolutePosition` (lines 568-571). -/
def absolutePosition (s : SmoothStepper) (number_of_steps : Int) : SmoothStepper :=
  let s := { s with step_to_be := number_of_steps - 1 }
  { s with steps_to_move := s.steps_to_move + 1 }

/-- Member `setOrigin` (lines 574-577).  `waitUntilArrived` spins while `isArrived()` is
non-zero, so the assignment is reached only from a state in which it is zero; `none` stands
for a caller that is still waiting. -/
def setOrigin (s : SmoothStepper) : Option SmoothStepper :=
  if isArrived s = 0 then some { s with current_step := 0 } else none

/-- Member `stopMove` (lines 580-583). -/
def stopMove (s : SmoothStepper) : SmoothStepper :=
  let s := { s with step_to_be := s.current_step - 1 }
  { s with steps_to_move := s.steps_to_move + 1 }

/-- Member `version` (line 588). -/
def version : Int := 6

/-- Lines 195-199 of the loop of `smoothStepperTask`: the pending relative move is merged into
`step_to_be` and a replan follows; `t1`, `t2` are the clock readings of that replan. -/
def drain (s : SmoothStepper) (t1 t2 : Nat) : SmoothStepper :=
  if s.steps_to_move ≠ 0 then
    let s := { s with step_to_be := s.step_to_be + s.steps_to_move }
    let s := { s with steps_to_move := 0 }
    calculStrategy s t1 t2
  else s

/-- Lines 208-222 of the loop: what follows an executed step; `t1`, `t2` are the clock
readings of a `calculateStartTime` and of a `calculateDelay` call made there. -/
def afterStep (s : SmoothStepper) (t1 t2 : Nat) : SmoothStepper :=
  if s.stopping = true then
    if s.newSpeed = s.vmin ∨ (s.smoothActivated = false ∧ s.step_to_be = s.current_step) then
      calculStrategy { s with direction := 0 } t1 t2
    else
      { (calculateDelay s t2).2 with newDelay := (calculateDelay s t2).1 }
  else
    let s :=
      if s.current_step * s.direction ≥ s.deccelerationAtStep * s.direction then
        let s := { s with stopping := true }
        { (calculateStartTime s t1).2 with start_time := truncToInt (calculateStartTime s t1).1 }
      else s
    { (calculateDelay s t2).2 with newDelay := (calculateDelay s t2).1 }

/-- A fixture: every field zero. -/
def zeroObject : SmoothStepper :=
  { direction := 0, step_to_be := 0, current_step := 0, steps_to_move := 0, number_of_steps := 0,
    smoothActivated := false, vmin := 0, current_speed := 0, vmax := 0, previousSpeed := 0,
    acc := 0, stepVmaxToVmin := 0, pin_count := 0, step_number := 0, deccelerationAtStep := 0,
    start_time := 0, stopping := false, newDelay := 0, newSpeed := 0, newDelay_last := 0,
    motor_pin_1 := 0, motor_pin_2 := 0, motor_pin_3 := 0, motor_pin_4 := 0, motor_pin_5 := 0,
    written := [] }

/-- The motor of the example sketches right after construction:
`SmoothStepper smoothStepper(2048, 23, 22, 21, 19)`. -/
def exampleMotor : SmoothStepper := new4 zeroObject 2048 23 22 21 19

/-- The motor of the example sketches after `accelerationEnable(3, 15, 500)` succeeded. -/
def configuredMotor : SmoothStepper := (accelerationEnable exampleMotor 3 15 500).2

/-- A configured motor in the middle of a forward leg: at step 400 on its way to step 500. -/
def inFlightMotor : SmoothStepper :=
  { configuredMotor with direction := 1, step_to_be := 500, current_step := 400,
                         newSpeed := 1 / 2, current_speed := 1 / 2, previousSpeed := 1 / 2 }

/-- The object `x` is `s` with further pin writes appended to the log, nothing else changed. -/
def LogOnly (s x : SmoothStepper) : Prop :=
  ∃ ws : List (Int × Bool), x = { s with written := s.written ++ ws }

/-- The speed-bound invariant of an object relative to the configured bounds `lo` and `hi`:
smoothing is on, `vmin` and `vmax` are the configured bounds and `newSpeed` lies between them. -/
def SpeedInv (lo hi : ℚ) (m : SmoothStepper) : Prop :=
  m.smoothActivated = true ∧ m.vmin = lo ∧ m.vmax = hi ∧ lo ≤ m.newSpeed ∧ m.newSpeed ≤ hi

/-- A configured motor in the middle of a forward leg whose target has just been moved behind
it: at step 400, travelling forward, target -1000. -/
def reversingMotor : SmoothStepper := { inFlightMotor with step_to_be := -1000 }

/-- The 2048-step motor after `accelerationEnable(30, 60, 500)` succeeded (`vmin` is above one
step per millisecond). -/
def highSpeedMotor : SmoothStepper := (accelerationEnable exampleMotor 30 60 500).2

/-- The second motor of the advanced example after `accelerationDisable(15)`. -/
def constantSpeedMotor : SmoothStepper := accelerationDisable exampleMotor 15

/-- The configured example motor at rest at step 500, as after `absolutePosition(500)` and
`waitUntilArrived()`. -/
def arrivedAt500 : SmoothStepper :=
  { configuredMotor with step_to_be := 500, current_step := 500 }

/-- A four-wire motor with 200 steps per revolution, constructed as
`SmoothStepper(200, 23, 22, 21, 19)`, at rest at step 2100. -/
def motor200At2100 : SmoothStepper :=
  { new4 zeroObject 200 23 22 21 19 with step_to_be := 2100, current_step := 2100 }

/-- A two-wire motor, `SmoothStepper(2048, 23, 22)`, travelling forward, phase counter 0. -/
def twoWireForward : SmoothStepper := { new2 zeroObject 2048 23 22 with direction := 1 }

/-- A five-wire motor, `SmoothStepper(2048, 23, 22, 21, 19, 18)`, travelling forward, phase
counter 4. -/
def fiveWireForward : SmoothStepper :=
  { new5 zeroObject 2048 23 22 21 19 18 with direction := 1, step_number := 4 }

/-- The documented sequence of control signals for 2 control wires (file header, lines 68-72):
one row per step, columns C0 C1, `true` for 1. -/
def commutation2 : List (List Bool) :=
  [[false, true], [true, true], [true, false], [false, false]]

/-- The documented sequence of control signals for 4 control wires (file header, lines 59-63):
one row per step, columns C0 C1 C2 C3. -/
def commutation4 : List (List Bool) :=
  [[true, false, true, false], [false, true, true, false], [false, true, false, true],
   [true, false, false, true]]

/-- The documented sequence of control signals for 5 phase, 5 control wires (file header, lines
45-55): one row per step, columns C0 C1 C2 C3 C4. -/
def commutation5 : List (List Bool) :=
  [[false, true, true, false, true], [false, true, false, false, true],
   [false, true, false, true, true], [false, true, false, true, false],
   [true, true, false, true, false], [true, false, false, true, false],
   [true, false, true, true, false], [true, false, true, false, false],
   [true, false, true, false, true], [false, false, true, false, true]]

/-- The pin writes one `doStep` adds to the log: the output pattern written by that step. -/
def stepWrites (s : SmoothStepper) : List (Int × Bool) :=
  (doStep s).written.drop s.written.length

/-- The pins of the motor's wiring mode, pin 1 first. -/
def modePins (s : SmoothStepper) : List Int :=
  if s.pin_count = 2 then [s.motor_pin_1, s.motor_pin_2]
  else if s.pin_count = 4 then [s.motor_pin_1, s.motor_pin_2, s.motor_pin_3, s.motor_pin_4]
  else if s.pin_count = 5 then
    [s.motor_pin_1, s.motor_pin_2, s.motor_pin_3, s.motor_pin_4, s.motor_pin_5]
  else []

/-- The documented commutation table of the motor's wiring mode. -/
def modeTable (s : SmoothStepper) : List (List Bool) :=
  if s.pin_count = 2 then commutation2
  else if s.pin_count = 4 then commutation4
  else if s.pin_count = 5 then commutation5
  else []

/-- The pin writes that put row `i + 1` of the documented table on pins 1..N, pin `k` getting
column `k`; no write when the table has no such row. -/
def documentedRow (s : SmoothStepper) (i : Int) : List (Int × Bool) :=
  if 0 ≤ i then List.zip (modePins s) ((modeTable s).getD i.toNat []) else []

end SmoothStepper

/-- The state of a running `smoothStepperTask`: the object and the local `last_step_time`. -/
structure StepperTask where
  motor : SmoothStepper
  last_step_time : Nat
deriving DecidableEq

/-- The clock readings one iteration of the loop can consume, in program order: two for the
replan of the drain, `now` (line 201), two for the code that follows an executed step. -/
structure Ticks where
  drain1 : Nat
  drain2 : Nat
  now : Nat
  post1 : Nat
  post2 : Nat

/-- The commands the application thread may issue while the task runs. -/
inductive Command where
  | step (number_of_steps : Int)
  | absolutePosition (number_of_steps : Int)
  | stopMove
  | goToOrigin (rotation_included : Bool)
  | setOrigin

/-- The effect of a command on the object; a `setOrigin` issued while the motor has not arrived
leaves the object as it is (its caller is still waiting). -/
def Command.apply (cmd : Command) (s : SmoothStepper) : SmoothStepper :=
  match cmd with
  | Command.step n => SmoothStepper.step s n
  | Command.absolutePosition n => SmoothStepper.absolutePosition s n
  | Command.stopMove => SmoothStepper.stopMove s
  | Command.goToOrigin b => SmoothStepper.goToOrigin s b
  | Command.setOrigin => (SmoothStepper.setOrigin s).getD s

/-- What can happen to a running task: one loop iteration, or one command from the application. -/
inductive Event where
  | tick (c : Ticks)
  | call (cmd : Command)

namespace StepperTask

/-- The test of line 204, `now - last_step_time >= newDelay * 1000`, in `unsigned long`. -/
def stepDue (s : SmoothStepper) (now last_step_time : Nat) : Prop :=
  ((u32 ((now : Int) - (last_step_time : Int)) : Int) : ℚ) ≥ s.newDelay * 1000

instance (s : SmoothStepper) (now last : Nat) : Decidable (stepDue s now last) := by
  unfold stepDue; infer_instance

/-- Lines 190-192 of `smoothStepperTask`: the first replan and `last_step_time = 0`. -/
def start (s : SmoothStepper) (t1 t2 : Nat) : StepperTask :=
  { motor := SmoothStepper.calculStrategy s t1 t2, last_step_time := 0 }

/-- One iteration of the `while (1)` loop of `smoothStepperTask` (lines 195-224). -/
def iterate (T : StepperTask) (c : Ticks) : StepperTask :=
  let s := SmoothStepper.drain T.motor c.drain1 c.drain2
  if s.step_to_be ≠ s.current_step ∨ s.direction ≠ 0 then
    if stepDue s c.now T.last_step_time then
      { motor := SmoothStepper.afterStep (SmoothStepper.doStep s) c.post1 c.post2,
        last_step_time := c.now }
    else { motor := s, last_step_time := T.last_step_time }
  else { motor := s, last_step_time := T.last_step_time }

/-- The loop run over a list of clock readings, one entry per iteration. -/
def run (T : StepperTask) : List Ticks → StepperTask
  | [] => T
  | c :: cs => run (iterate T c) cs

/-- The task run over a list of events: loop iterations interleaved with commands. -/
def exec (T : StepperTask) : List Event → StepperTask
  | [] => T
  | Event.tick c :: es => exec (iterate T c) es
  | Event.call cmd :: es => exec { T with motor := cmd.apply T.motor } es

/-- The task of the high-speed motor, started at clock 0, after `step(100)` and one loop
iteration at clock 500-600 (the leg is planned, no step is due yet). -/
def legPlanned : StepperTask :=
  exec (start SmoothStepper.highSpeedMotor 0 0)
    [Event.call (Command.step 100), Event.tick ⟨500, 500, 600, 0, 0⟩]

/-- The object on which the replan runs when `step(-100)` arrives right after `legPlanned`:
the pending `-100` is merged, so the remaining distance is zero. -/
def reversedBeforeFirstStep : SmoothStepper :=
  { SmoothStepper.step legPlanned.motor (-100) with
    step_to_be := legPlanned.motor.step_to_be + (-100), steps_to_move := 0 }

end StepperTask

namespace SmoothStepper
open StepperTask

/-! ## Predicates and fixtures that involve the running task -/

/-- The example motor with its phase counter on the last phase, 2047. -/
def lastPhaseMotor : SmoothStepper := { exampleMotor with step_number := 2047 }

/-- A constant-speed motor that keeps stepping past its target: smoothing is off, `stopping` is
set, nothing is pending, `newSpeed` differs from `vmin`, and the position is at or beyond the
target in the direction of travel. -/
def PastTarget (m : SmoothStepper) : Prop :=
  m.smoothActivated = false ∧ m.stopping = true ∧ m.steps_to_move = 0 ∧ m.newSpeed ≠ m.vmin
  ∧ ((m.direction = 1 ∧ m.step_to_be ≤ m.current_step)
      ∨ (m.direction ≠ 1 ∧ m.direction ≠ 0 ∧ m.current_step ≤ m.step_to_be))

/-- The task of the constant-speed example motor, started at clock 0, three steps into a
`step(200)` leg (one step every 2000 microseconds). -/
def constantSpeedRunning : StepperTask :=
  exec (start constantSpeedMotor 0 0)
    [Event.call (Command.step 200), Event.tick ⟨2000, 2000, 2000, 2000, 2000⟩,
     Event.tick ⟨4000, 4000, 4000, 4000, 4000⟩, Event.tick ⟨6000, 6000, 6000, 6000, 6000⟩]

/-- The running constant-speed task right after `stopMove()` and the drain that follows it,
before any further step. -/
def constantSpeedStopped : StepperTask :=
  { motor := drain (stopMove constantSpeedRunning.motor) 7000 7000, last_step_time := 6000 }

/-- The ramp speed of the specification: `clamp(vmax - acc*t, vmin, vmax)` when stopping
and `clamp(vmin + acc*t, vmin, vmax)` otherwise, for an elapsed time `t` in milliseconds. -/
def rampSpeedAt (s : SmoothStepper) (t : ℚ) : ℚ :=
  min (max (if s.stopping = true then s.vmax - s.acc * t else s.vmin + s.acc * t) s.vmin) s.vmax

/-- The elapsed time of the specification read exactly: `now - start_time` (both in microseconds)
expressed in milliseconds. -/
def elapsedMsExact (s : SmoothStepper) (now : Nat) : ℚ :=
  ((now : ℚ) - (s.start_time : ℚ)) / 1000

/-- The elapsed time of the specification read as the whole milliseconds of `now - start_time`. -/
def elapsedMsWhole (s : SmoothStepper) (now : Nat) : ℚ :=
  ((Int.tdiv ((now : Int) - s.start_time) 1000 : Int) : ℚ)

/-- The time the code uses: the clock reading in whole milliseconds minus `start_time` in whole
milliseconds, as an `unsigned long`. -/
def elapsedMsOfReadings (s : SmoothStepper) (now : Nat) : ℚ :=
  ((u32 (((now / 1000 : Nat) : Int) - Int.tdiv s.start_time 1000) : Int) : ℚ)

/-- The configured example motor accelerating on a ramp whose time origin is 1999 microseconds. -/
def rampFrom1999 : SmoothStepper := { configuredMotor with start_time := 1999, stopping := false }

/-- The constant-speed example motor at rest at step 0 with the target moved to -300. -/
def constantSpeedReverseLeg : SmoothStepper := { constantSpeedMotor with step_to_be := -300 }

/-- The constant-speed example motor at rest at step 0 with the target moved to 300. -/
def constantSpeedForwardLeg : SmoothStepper := { constantSpeedMotor with step_to_be := 300 }

/-- The task of the configured example motor right after the command `step(100)`, before any
loop iteration. -/
def commandPending : StepperTask :=
  exec (start configuredMotor 0 0) [Event.call (Command.step 100)]

/-- The task of the high-speed motor after `step(100)`, one loop iteration, `step(-100)` and
one more loop iteration, no step being due yet. -/
def legCancelled : StepperTask :=
  exec (start highSpeedMotor 0 0)
    [Event.call (Command.step 100), Event.tick ⟨500, 500, 600, 0, 0⟩,
     Event.call (Command.step (-100)), Event.tick ⟨700, 700, 800, 0, 0⟩]

/-- The configured example motor at rest at step 0 with the target moved to 2000: a leg long
enough to cruise. -/
def longLeg : SmoothStepper := { configuredMotor with step_to_be := 2000 }

/-! ## Auxiliary lemmas -/

theorem wrap32_add_left (x y : Int) : wrap32 (wrap32 x + y) = wrap32 (x + y) := by
  unfold wrap32; omega

theorem wrap32_add_right (x y : Int) : wrap32 (x + wrap32 y) = wrap32 (x + y) := by
  unfold wrap32; omega

theorem calculateDelay_frame (s : SmoothStepper) (t : Nat) :
    (calculateDelay s t).2.step_to_be = s.step_to_be
    ∧ (calculateDelay s t).2.current_step = s.current_step
    ∧ (calculateDelay s t).2.steps_to_move = s.steps_to_move
    ∧ (calculateDelay s t).2.direction = s.direction
    ∧ (calculateDelay s t).2.stopping = s.stopping
    ∧ (calculateDelay s t).2.smoothActivated = s.smoothActivated
    ∧ (calculateDelay s t).2.vmin = s.vmin
    ∧ (calculateDelay s t).2.vmax = s.vmax
    ∧ (calculateDelay s t).2.written = s.written := by
  unfold calculateDelay
  simp only
  split_ifs <;> simp

theorem calculateStartTime_frame (s : SmoothStepper) (t : Nat) :
    (calculateStartTime s t).2.step_to_be = s.step_to_be
    ∧ (calculateStartTime s t).2.current_step = s.current_step
    ∧ (calculateStartTime s t).2.steps_to_move = s.steps_to_move
    ∧ (calculateStartTime s t).2.direction = s.direction
    ∧ (calculateStartTime s t).2.stopping = s.stopping
    ∧ (calculateStartTime s t).2.smoothActivated = s.smoothActivated
    ∧ (calculateStartTime s t).2.vmin = s.vmin
    ∧ (calculateStartTime s t).2.vmax = s.vmax
    ∧ (calculateStartTime s t).2.written = s.written := by
  unfold calculateStartTime
  simp only
  split_ifs <;> simp

theorem restartRamp_frame (s : SmoothStepper) (t1 t2 : Nat) :
    (restartRamp s t1 t2).step_to_be = s.step_to_be
    ∧ (restartRamp s t1 t2).current_step = s.current_step
    ∧ (restartRamp s t1 t2).steps_to_move = s.steps_to_move
    ∧ (restartRamp s t1 t2).direction = s.direction
    ∧ (restartRamp s t1 t2).stopping = s.stopping
    ∧ (restartRamp s t1 t2).smoothActivated = s.smoothActivated
    ∧ (restartRamp s t1 t2).vmin = s.vmin
    ∧ (restartRamp s t1 t2).vmax = s.vmax
    ∧ (restartRamp s t1 t2).written = s.written := by
  unfold restartRamp
  simp only
  obtain ⟨a1, a2, a3, a4, a5, a6, a7, a8, a9⟩ := calculateStartTime_frame s t1
  obtain ⟨b1, b2, b3, b4, b5, b6, b7, b8, b9⟩ := calculateDelay_frame
    { (calculateStartTime s t1).2 with start_time := truncToInt (calculateStartTime s t1).1 } t2
  simp only at b1 b2 b3 b4 b5 b6 b7 b8 b9
  refine ⟨?_, ?_, ?_, ?_, ?_, ?_, ?_, ?_, ?_⟩
  · rw [b1, a1]
  · rw [b2, a2]
  · rw [b3, a3]
  · rw [b4, a4]
  · rw [b5, a5]
  · rw [b6, a6]
  · rw [b7, a7]
  · rw [b8, a8]
  · rw [b9, a9]

theorem planLeg_frame (s : SmoothStepper) (n : Int) :
    (planLeg s n).step_to_be = s.step_to_be
    ∧ (planLeg s n).current_step = s.current_step
    ∧ (planLeg s n).steps_to_move = s.steps_to_move
    ∧ (planLeg s n).direction = s.direction
    ∧ (planLeg s n).smoothActivated = s.smoothActivated
    ∧ (planLeg s n).vmin = s.vmin
    ∧ (planLeg s n).vmax = s.vmax
    ∧ (planLeg s n).newSpeed = s.newSpeed
    ∧ (planLeg s n).written = s.written := by
  unfold planLeg
  simp only
  split_ifs <;> simp

theorem calculStrategy_frame (s : SmoothStepper) (t1 t2 : Nat) :
    (calculStrategy s t1 t2).step_to_be = s.step_to_be
    ∧ (calculStrategy s t1 t2).current_step = s.current_step
    ∧ (calculStrategy s t1 t2).steps_to_move = s.steps_to_move
    ∧ (calculStrategy s t1 t2).smoothActivated = s.smoothActivated
    ∧ (calculStrategy s t1 t2).vmin = s.vmin
    ∧ (calculStrategy s t1 t2).vmax = s.vmax
    ∧ (calculStrategy s t1 t2).written = s.written := by
  unfold calculStrategy
  simp only
  split_ifs
  · simp
  · obtain ⟨a1, a2, a3, _, _, a6, a7, a8, a9⟩ :=
      restartRamp_frame (planLeg { s with direction := 1 } (s.step_to_be - s.current_step)) t1 t2
    obtain ⟨b1, b2, b3, _, b5, b6, b7, _, b9⟩ :=
      planLeg_frame { s with direction := 1 } (s.step_to_be - s.current_step)
    exact ⟨a1.trans b1, a2.trans b2, a3.trans b3, a6.trans b5, a7.trans b6, a8.trans b7,
      a9.trans b9⟩
  · obtain ⟨a1, a2, a3, _, _, a6, a7, a8, a9⟩ :=
      restartRamp_frame (planLeg { s with direction := -1 } (s.step_to_be - s.current_step)) t1 t2
    obtain ⟨b1, b2, b3, _, b5, b6, b7, _, b9⟩ :=
      planLeg_frame { s with direction := -1 } (s.step_to_be - s.current_step)
    exact ⟨a1.trans b1, a2.trans b2, a3.trans b3, a6.trans b5, a7.trans b6, a8.trans b7,
      a9.trans b9⟩
  · obtain ⟨a1, a2, a3, _, _, a6, a7, a8, a9⟩ :=
      restartRamp_frame (planLeg s (s.step_to_be - s.current_step)) t1 t2
    obtain ⟨b1, b2, b3, _, b5, b6, b7, _, b9⟩ :=
      planLeg_frame s (s.step_to_be - s.current_step)
    exact ⟨a1.trans b1, a2.trans b2, a3.trans b3, a6.trans b5, a7.trans b6, a8.trans b7,
      a9.trans b9⟩
  · obtain ⟨a1, a2, a3, _, _, a6, a7, a8, a9⟩ :=
      restartRamp_frame { s with stopping := true } t1 t2
    exact ⟨a1, a2, a3, a6, a7, a8, a9⟩

/-- With smoothing enabled a replan never touches a non-zero `direction`. -/
theorem calculStrategy_direction_of_smooth (s : SmoothStepper) (t1 t2 : Nat)
    (hs : s.smoothActivated = true) (hd : s.direction ≠ 0) :
    (calculStrategy s t1 t2).direction = s.direction := by
  unfold calculStrategy
  simp only
  split_ifs with h1 h2 h3 h4
  · rfl
  · rcases h2 with ⟨_, h | h⟩
    · exact absurd h hd
    · rw [hs] at h; exact absurd h (by decide)
  · rcases h3 with ⟨_, h | h⟩
    · exact absurd h hd
    · rw [hs] at h; exact absurd h (by decide)
  · rw [(restartRamp_frame _ t1 t2).2.2.2.1, (planLeg_frame _ _).2.2.2.1]
  · rw [(restartRamp_frame _ t1 t2).2.2.2.1]

theorem drain_step_to_be (s : SmoothStepper) (t1 t2 : Nat) :
    (drain s t1 t2).step_to_be = s.step_to_be + s.steps_to_move
    ∧ (drain s t1 t2).steps_to_move = 0
    ∧ (drain s t1 t2).current_step = s.current_step := by
  unfold drain
  split_ifs with h
  · obtain ⟨a1, a2, a3, _⟩ := calculStrategy_frame
      { s with step_to_be := s.step_to_be + s.steps_to_move, steps_to_move := 0 } t1 t2
    exact ⟨a1, a3, a2⟩
  · simp only [ne_eq, Decidable.not_not] at h
    simp [h]

theorem accelerationEnable_fst (s : SmoothStepper) (minSpeed maxSpeed : ℚ) (rampTime : Int) :
    (accelerationEnable s minSpeed maxSpeed rampTime).1 = false
      ↔ (minSpeed ≤ 0 ∨ maxSpeed ≤ 0 ∨ rampTime ≤ 0) := by
  unfold accelerationEnable
  simp only
  split_ifs with h
  · simp only [true_iff]
    tauto
  · simp only [Bool.true_eq_false, false_iff]
    tauto

theorem accelerationEnable_fields (s : SmoothStepper) (minSpeed maxSpeed : ℚ) (rampTime : Int)
    (hok : (accelerationEnable s minSpeed maxSpeed rampTime).1 = true) :
    (accelerationEnable s minSpeed maxSpeed rampTime).2.vmin
        = minSpeed * (s.number_of_steps : ℚ) / 60 / 1000
    ∧ (accelerationEnable s minSpeed maxSpeed rampTime).2.vmax
        = maxSpeed * (s.number_of_steps : ℚ) / 60 / 1000
    ∧ (accelerationEnable s minSpeed maxSpeed rampTime).2.acc
        = (maxSpeed * (s.number_of_steps : ℚ) / 60 / 1000
            - minSpeed * (s.number_of_steps : ℚ) / 60 / 1000) / (rampTime : ℚ)
    ∧ (accelerationEnable s minSpeed maxSpeed rampTime).2.smoothActivated = true := by
  unfold accelerationEnable at hok ⊢
  simp only at hok ⊢
  split_ifs at hok ⊢ <;> simp at hok ⊢

theorem accelerationEnable_rejected (s : SmoothStepper) (minSpeed maxSpeed : ℚ) (rampTime : Int)
    (h : (accelerationEnable s minSpeed maxSpeed rampTime).1 = false) :
    (accelerationEnable s minSpeed maxSpeed rampTime).2 = { s with smoothActivated := true } := by
  unfold accelerationEnable at h ⊢
  simp only at h ⊢
  split_ifs at h ⊢ with hc
  rfl

theorem logOnly_refl (s : SmoothStepper) : LogOnly s s := ⟨[], by simp⟩

theorem logOnly_ite (s : SmoothStepper) (c : Prop) [Decidable c] (a b : SmoothStepper)
    (ha : LogOnly s a) (hb : LogOnly s b) : LogOnly s (if c then a else b) := by
  split_ifs
  · exact ha
  · exact hb

theorem writePins_eq (ws : List (Int × Bool)) (s : SmoothStepper) :
    writePins s ws = { s with written := s.written ++ ws } := by
  unfold writePins
  induction ws generalizing s with
  | nil => simp
  | cons w ws ih =>
    rw [List.foldl_cons, ih]
    simp [digitalWrite]

theorem logOnly_writePins (s : SmoothStepper) (ws : List (Int × Bool)) :
    LogOnly s (writePins s ws) := ⟨ws, writePins_eq ws s⟩

theorem logOnly_stepMotor2 (s : SmoothStepper) (k : Int) : LogOnly s (stepMotor2 s k) := by
  unfold stepMotor2
  repeat (first | exact logOnly_writePins _ _ | exact logOnly_refl _ | apply logOnly_ite)

theorem logOnly_stepMotor4 (s : SmoothStepper) (k : Int) : LogOnly s (stepMotor4 s k) := by
  unfold stepMotor4
  repeat (first | exact logOnly_writePins _ _ | exact logOnly_refl _ | apply logOnly_ite)

theorem logOnly_stepMotor5 (s : SmoothStepper) (k : Int) : LogOnly s (stepMotor5 s k) := by
  unfold stepMotor5
  repeat (first | exact logOnly_writePins _ _ | exact logOnly_refl _ | apply logOnly_ite)

theorem logOnly_stepMotor (s : SmoothStepper) (k : Int) : LogOnly s (stepMotor s k) := by
  unfold stepMotor
  by_cases c2 : s.pin_count = 2
  · have c4 : ¬ s.pin_count = 4 := by omega
    have c5 : ¬ s.pin_count = 5 := by omega
    obtain ⟨ws, hws⟩ := logOnly_stepMotor2 s k
    refine ⟨ws, ?_⟩
    simp [c2, hws]
  · by_cases c4 : s.pin_count = 4
    · obtain ⟨ws, hws⟩ := logOnly_stepMotor4 s k
      refine ⟨ws, ?_⟩
      simp [c4, hws]
    · by_cases c5 : s.pin_count = 5
      · obtain ⟨ws, hws⟩ := logOnly_stepMotor5 s k
        refine ⟨ws, ?_⟩
        simp [c5, hws]
      · exact ⟨[], by simp [c2, c4, c5]⟩

theorem doStep_frame (s : SmoothStepper) :
    (doStep s).direction = s.direction
    ∧ (doStep s).stopping = s.stopping
    ∧ (doStep s).newSpeed = s.newSpeed
    ∧ (doStep s).vmin = s.vmin
    ∧ (doStep s).vmax = s.vmax
    ∧ (doStep s).smoothActivated = s.smoothActivated
    ∧ (doStep s).step_to_be = s.step_to_be
    ∧ (doStep s).steps_to_move = s.steps_to_move
    ∧ (doStep s).current_speed = s.newSpeed
    ∧ (doStep s).current_step = if s.direction = 1 then s.current_step + 1
        else s.current_step - 1 := by
  unfold doStep
  simp only
  split_ifs with h1 h2 h3
  all_goals
    obtain ⟨ws, hws⟩ := logOnly_stepMotor _ _
    rw [hws]
    simp
theorem afterStep_current_step (s : SmoothStepper) (t1 t2 : Nat) :
    (afterStep s t1 t2).current_step = s.current_step := by
  unfold afterStep
  simp only
  split_ifs
  · exact (calculStrategy_frame _ t1 t2).2.1
  · exact (calculateDelay_frame s t2).2.1
  · simp only
    rw [(calculateDelay_frame _ t2).2.1]
    exact (calculateStartTime_frame _ t1).2.1
  · exact (calculateDelay_frame s t2).2.1

/-- The position after one loop iteration: one `doStep` when a step is due, nothing otherwise. -/
theorem iterate_current_step (s : SmoothStepper) (last : Nat) (c : Ticks) :
    (iterate { motor := s, last_step_time := last } c).motor.current_step
      = if ((drain s c.drain1 c.drain2).step_to_be ≠ (drain s c.drain1 c.drain2).current_step
            ∨ (drain s c.drain1 c.drain2).direction ≠ 0)
          ∧ stepDue (drain s c.drain1 c.drain2) c.now last
        then (if (drain s c.drain1 c.drain2).direction = 1 then s.current_step + 1
              else s.current_step - 1)
        else s.current_step := by
  have hd := (drain_step_to_be s c.drain1 c.drain2).2.2
  unfold iterate
  simp only
  split_ifs with h1 h2 h3 h4 h5 h6 h7
  all_goals first
    | (rw [afterStep_current_step, (doStep_frame _).2.2.2.2.2.2.2.2.2]
       simp only [hd]
       split_ifs <;> first | rfl | (exfalso; tauto))
    | exact hd
    | (exfalso; tauto)

theorem calculateDelay_bounds (s : SmoothStepper) (t : Nat) (hs : s.smoothActivated = true)
    (hle : s.vmin ≤ s.vmax) :
    s.vmin ≤ (calculateDelay s t).2.newSpeed
    ∧ (calculateDelay s t).2.newSpeed ≤ s.vmax
    ∧ (calculateDelay s t).1 = 1 / (calculateDelay s t).2.newSpeed := by
  unfold calculateDelay
  simp only [hs]
  split_ifs with h1 h2 h3 h4 h5 h6 h7 h8 h9
  all_goals simp only at *
  all_goals (refine ⟨?_, ?_, trivial⟩ <;> linarith)

theorem storeDelay_speedInv (lo hi : ℚ) (hle : lo ≤ hi) (m : SmoothStepper) (t2 : Nat)
    (ms : m.smoothActivated = true) (mlo : m.vmin = lo) (mhi : m.vmax = hi) :
    SpeedInv lo hi { (calculateDelay m t2).2 with newDelay := (calculateDelay m t2).1 } := by
  obtain ⟨_, _, _, _, _, c6, c7, c8, _⟩ := calculateDelay_frame m t2
  have hb := calculateDelay_bounds m t2 ms (by rw [mlo, mhi]; exact hle)
  rw [mlo, mhi] at hb
  exact ⟨c6.trans ms, c7.trans mlo, c8.trans mhi, hb.1, hb.2.1⟩

theorem restartRamp_speedInv (s : SmoothStepper) (t1 t2 : Nat) (hs : s.smoothActivated = true)
    (hle : s.vmin ≤ s.vmax) : SpeedInv s.vmin s.vmax (restartRamp s t1 t2) := by
  obtain ⟨_, _, _, _, _, a6, a7, a8, _⟩ := calculateStartTime_frame s t1
  unfold restartRamp
  exact storeDelay_speedInv s.vmin s.vmax hle _ t2 (a6.trans hs) a7 a8

theorem calculStrategy_speedInv (s : SmoothStepper) (t1 t2 : Nat) (hs : s.smoothActivated = true)
    (hle : s.vmin ≤ s.vmax) : SpeedInv s.vmin s.vmax (calculStrategy s t1 t2) := by
  unfold calculStrategy
  simp only
  split_ifs with h1 h2 h3 h4
  · exact ⟨hs, rfl, rfl, by rw [h1.2], by rw [h1.2]; exact hle⟩
  · obtain ⟨_, _, _, _, b5, b6, b7, _, _⟩ :=
      planLeg_frame { s with direction := 1 } (s.step_to_be - s.current_step)
    have := restartRamp_speedInv (planLeg { s with direction := 1 }
      (s.step_to_be - s.current_step)) t1 t2 (b5.trans hs) (by rw [b6, b7]; exact hle)
    rw [b6, b7] at this
    exact this
  · obtain ⟨_, _, _, _, b5, b6, b7, _, _⟩ :=
      planLeg_frame { s with direction := -1 } (s.step_to_be - s.current_step)
    have := restartRamp_speedInv (planLeg { s with direction := -1 }
      (s.step_to_be - s.current_step)) t1 t2 (b5.trans hs) (by rw [b6, b7]; exact hle)
    rw [b6, b7] at this
    exact this
  · obtain ⟨_, _, _, _, b5, b6, b7, _, _⟩ := planLeg_frame s (s.step_to_be - s.current_step)
    have := restartRamp_speedInv (planLeg s (s.step_to_be - s.current_step)) t1 t2
      (b5.trans hs) (by rw [b6, b7]; exact hle)
    rw [b6, b7] at this
    exact this
  · exact restartRamp_speedInv { s with stopping := true } t1 t2 hs hle

theorem calculStrategy_speedInv_of_eq (lo hi : ℚ) (hle : lo ≤ hi) (s : SmoothStepper)
    (t1 t2 : Nat) (hs : s.smoothActivated = true) (hlo : s.vmin = lo) (hhi : s.vmax = hi) :
    SpeedInv lo hi (calculStrategy s t1 t2) := by
  subst hlo hhi
  exact calculStrategy_speedInv s t1 t2 hs hle

theorem drain_speedInv (lo hi : ℚ) (hle : lo ≤ hi) (s : SmoothStepper) (t1 t2 : Nat)
    (h : SpeedInv lo hi s) : SpeedInv lo hi (drain s t1 t2) := by
  unfold drain
  split_ifs with h0
  · obtain ⟨hs, hlo, hhi, _, _⟩ := h
    exact calculStrategy_speedInv_of_eq lo hi hle
      { s with step_to_be := s.step_to_be + s.steps_to_move, steps_to_move := 0 } t1 t2 hs
      hlo hhi
  · exact h

theorem doStep_speedInv (lo hi : ℚ) (s : SmoothStepper) (h : SpeedInv lo hi s) :
    SpeedInv lo hi (doStep s) ∧ lo ≤ (doStep s).current_speed ∧ (doStep s).current_speed ≤ hi := by
  obtain ⟨hs, hlo, hhi, h1, h2⟩ := h
  obtain ⟨_, _, a3, a4, a5, a6, _, _, a9, _⟩ := doStep_frame s
  refine ⟨⟨a6.trans hs, a4.trans hlo, a5.trans hhi, ?_, ?_⟩, ?_, ?_⟩
  · rw [a3]; exact h1
  · rw [a3]; exact h2
  · rw [a9]; exact h1
  · rw [a9]; exact h2

theorem afterStep_speedInv (lo hi : ℚ) (hle : lo ≤ hi) (s : SmoothStepper) (t1 t2 : Nat)
    (h : SpeedInv lo hi s) : SpeedInv lo hi (afterStep s t1 t2) := by
  obtain ⟨hs, hlo, hhi, h1, h2⟩ := h
  have key : ∀ m : SmoothStepper, m.smoothActivated = true → m.vmin = lo → m.vmax = hi →
      SpeedInv lo hi { (calculateDelay m t2).2 with newDelay := (calculateDelay m t2).1 } :=
    fun m ms mlo mhi => storeDelay_speedInv lo hi hle m t2 ms mlo mhi
  unfold afterStep
  simp only
  split_ifs with c1 c2 c3
  · exact calculStrategy_speedInv_of_eq lo hi hle { s with direction := 0 } t1 t2 hs hlo hhi
  · exact key s hs hlo hhi
  · obtain ⟨_, _, _, _, _, d6, d7, d8, _⟩ := calculateStartTime_frame { s with stopping := true } t1
    exact key _ (d6.trans hs) (d7.trans hlo) (d8.trans hhi)
  · exact key s hs hlo hhi

theorem iterate_speedInv (lo hi : ℚ) (hle : lo ≤ hi) (T : StepperTask) (c : Ticks)
    (h : SpeedInv lo hi T.motor) : SpeedInv lo hi (iterate T c).motor := by
  have hd := drain_speedInv lo hi hle T.motor c.drain1 c.drain2 h
  unfold iterate
  simp only
  split_ifs
  · exact afterStep_speedInv lo hi hle _ c.post1 c.post2 (doStep_speedInv lo hi _ hd).1
  · exact hd
  · exact hd

theorem run_speedInv (lo hi : ℚ) (hle : lo ≤ hi) (cs : List Ticks) (T : StepperTask)
    (h : SpeedInv lo hi T.motor) : SpeedInv lo hi (run T cs).motor := by
  induction cs generalizing T with
  | nil => exact h
  | cons c cs ih => exact ih (iterate T c) (iterate_speedInv lo hi hle T c h)

theorem command_speedInv (lo hi : ℚ) (cmd : Command) (s : SmoothStepper)
    (h : SpeedInv lo hi s) : SpeedInv lo hi (cmd.apply s) := by
  cases cmd with
  | step n => exact h
  | absolutePosition n => exact h
  | stopMove => exact h
  | goToOrigin b =>
    unfold Command.apply goToOrigin
    simp only
    split_ifs
    · exact h
    · exact h
  | setOrigin =>
    unfold Command.apply setOrigin
    simp only
    split_ifs
    · exact h
    · exact h

theorem exec_speedInv (lo hi : ℚ) (hle : lo ≤ hi) (es : List Event) (T : StepperTask)
    (h : SpeedInv lo hi T.motor) : SpeedInv lo hi (exec T es).motor := by
  induction es generalizing T with
  | nil => exact h
  | cons e es ih =>
    cases e with
    | tick c => exact ih (iterate T c) (iterate_speedInv lo hi hle T c h)
    | call cmd => exact ih _ (command_speedInv lo hi cmd T.motor h)

theorem drain_direction_of_smooth (s : SmoothStepper) (t1 t2 : Nat)
    (hs : s.smoothActivated = true) (hd : s.direction ≠ 0) :
    (drain s t1 t2).direction = s.direction ∧ (drain s t1 t2).smoothActivated = true := by
  unfold drain
  split_ifs with h
  · exact ⟨calculStrategy_direction_of_smooth
      { s with step_to_be := s.step_to_be + s.steps_to_move, steps_to_move := 0 } t1 t2 hs hd,
      ((calculStrategy_frame _ t1 t2).2.2.2.1).trans hs⟩
  · exact ⟨rfl, hs⟩

theorem afterStep_direction_of_smooth (s : SmoothStepper) (t1 t2 : Nat)
    (hs : s.smoothActivated = true) :
    (afterStep s t1 t2).direction = s.direction
    ∨ (s.stopping = true ∧ s.newSpeed = s.vmin
        ∧ afterStep s t1 t2 = calculStrategy { s with direction := 0 } t1 t2) := by
  unfold afterStep
  simp only
  split_ifs with c1 c2 c3
  · right
    refine ⟨c1, ?_, rfl⟩
    rcases c2 with h | ⟨h, _⟩
    · exact h
    · rw [hs] at h; exact absurd h (by decide)
  · left; exact (calculateDelay_frame s t2).2.2.2.1
  · left
    simp only
    rw [(calculateDelay_frame _ t2).2.2.2.1]
    exact (calculateStartTime_frame _ t1).2.2.2.1
  · left; exact (calculateDelay_frame s t2).2.2.2.1

theorem truncToInt_zero : truncToInt 0 = 0 := by decide

theorem restartRamp_of_not_smooth (s : SmoothStepper) (t1 t2 : Nat)
    (h : s.smoothActivated = false) :
    restartRamp s t1 t2 = { s with start_time := 0, newDelay := 1 / s.vmin } := by
  unfold restartRamp calculateStartTime calculateDelay
  simp [h, truncToInt_zero]

theorem iterate_idle (s : SmoothStepper) (last : Nat) (c : Ticks)
    (hb : s.step_to_be = s.current_step) (hd : s.direction = 0) (h0 : s.steps_to_move = 0) :
    iterate { motor := s, last_step_time := last } c = { motor := s, last_step_time := last } := by
  unfold iterate drain
  simp [h0, hb, hd]

theorem calculateDelay_of_not_smooth (s : SmoothStepper) (micros : Nat)
    (h : s.smoothActivated = false) : calculateDelay s micros = (1 / s.vmin, s) := by
  unfold calculateDelay
  simp [h]

theorem accelerationDisable_smoothActivated (s : SmoothStepper) (speed : ℚ) :
    (accelerationDisable s speed).smoothActivated = false := by
  unfold accelerationDisable; simp only; split_ifs <;> rfl

theorem getD_of_le (rows : List (List Bool)) (n : Nat) (h : rows.length ≤ n) :
    rows.getD n [] = [] := by
  rw [List.getD_eq_getElem?_getD, List.getElem?_eq_none h]
  rfl

/-- Row `i + 1` of a table written on a list of pins. -/
theorem stepMotor2_row (s : SmoothStepper) (i : Int) :
    stepMotor2 s i = { s with written := s.written ++
      (if 0 ≤ i then List.zip [s.motor_pin_1, s.motor_pin_2] (commutation2.getD i.toNat [])
        else []) } := by
  unfold stepMotor2
  simp only [writePins_eq]
  by_cases h0 : i = 0
  · subst h0; simp [commutation2]
  by_cases h1 : i = 1
  · subst h1; simp [commutation2]
  by_cases h2 : i = 2
  · subst h2; simp [commutation2]
  by_cases h3 : i = 3
  · subst h3; simp [commutation2]
  simp only [h0, h1, h2, h3, if_false]
  split_ifs with hn
  · have hlen : commutation2.length ≤ i.toNat := by
      simp only [commutation2, List.length_cons, List.length_nil]; omega
    rw [getD_of_le _ _ hlen]
    simp
  · simp

theorem stepMotor4_row (s : SmoothStepper) (i : Int) :
    stepMotor4 s i = { s with written := s.written ++
      (if 0 ≤ i then
        List.zip [s.motor_pin_1, s.motor_pin_2, s.motor_pin_3, s.motor_pin_4]
          (commutation4.getD i.toNat [])
        else []) } := by
  unfold stepMotor4
  simp only [writePins_eq]
  by_cases h0 : i = 0
  · subst h0; simp [commutation4]
  by_cases h1 : i = 1
  · subst h1; simp [commutation4]
  by_cases h2 : i = 2
  · subst h2; simp [commutation4]
  by_cases h3 : i = 3
  · subst h3; simp [commutation4]
  simp only [h0, h1, h2, h3, if_false]
  split_ifs with hn
  · have hlen : commutation4.length ≤ i.toNat := by
      simp only [commutation4, List.length_cons, List.length_nil]; omega
    rw [getD_of_le _ _ hlen]
    simp
  · simp

theorem stepMotor5_row (s : SmoothStepper) (i : Int) :
    stepMotor5 s i = { s with written := s.written ++
      (if 0 ≤ i then
        List.zip [s.motor_pin_1, s.motor_pin_2, s.motor_pin_3, s.motor_pin_4, s.motor_pin_5]
          (commutation5.getD i.toNat [])
        else []) } := by
  unfold stepMotor5
  simp only [writePins_eq]
  by_cases h0 : i = 0
  · subst h0; simp [commutation5]
  by_cases h1 : i = 1
  · subst h1; simp [commutation5]
  by_cases h2 : i = 2
  · subst h2; simp [commutation5]
  by_cases h3 : i = 3
  · subst h3; simp [commutation5]
  by_cases h4 : i = 4
  · subst h4; simp [commutation5]
  by_cases h5 : i = 5
  · subst h5; simp [commutation5]
  by_cases h6 : i = 6
  · subst h6; simp [commutation5]
  by_cases h7 : i = 7
  · subst h7; simp [commutation5]
  by_cases h8 : i = 8
  · subst h8; simp [commutation5]
  by_cases h9 : i = 9
  · subst h9; simp [commutation5]
  simp only [h0, h1, h2, h3, h4, h5, h6, h7, h8, h9, if_false]
  split_ifs with hn
  · have hlen : commutation5.length ≤ i.toNat := by
      simp only [commutation5, List.length_cons, List.length_nil]; omega
    rw [getD_of_le _ _ hlen]
    simp
  · simp

theorem stepMotor_eq_documentedRow (s : SmoothStepper) (i : Int) :
    stepMotor s i = { s with written := s.written ++ documentedRow s i } := by
  by_cases c2 : s.pin_count = 2
  · have c4 : ¬ s.pin_count = 4 := by omega
    have c5 : ¬ s.pin_count = 5 := by omega
    have hr : documentedRow s i
        = (if 0 ≤ i then List.zip [s.motor_pin_1, s.motor_pin_2] (commutation2.getD i.toNat [])
            else []) := by
      unfold documentedRow modePins modeTable
      rw [if_pos c2, if_pos c2]
    rw [hr]
    unfold stepMotor
    simp only
    rw [if_pos c2, stepMotor2_row]
    simp only [c4, c5, if_false]
  · by_cases c4 : s.pin_count = 4
    · have c5 : ¬ s.pin_count = 5 := by omega
      have hr : documentedRow s i
          = (if 0 ≤ i then
              List.zip [s.motor_pin_1, s.motor_pin_2, s.motor_pin_3, s.motor_pin_4]
                (commutation4.getD i.toNat [])
              else []) := by
        unfold documentedRow modePins modeTable
        rw [if_neg c2, if_neg c2, if_pos c4, if_pos c4]
      rw [hr]
      unfold stepMotor
      simp only
      rw [if_neg c2, if_pos c4, stepMotor4_row]
      simp only [c5, if_false]
    · by_cases c5 : s.pin_count = 5
      · have hr : documentedRow s i
            = (if 0 ≤ i then
                List.zip [s.motor_pin_1, s.motor_pin_2, s.motor_pin_3, s.motor_pin_4,
                  s.motor_pin_5] (commutation5.getD i.toNat [])
                else []) := by
          unfold documentedRow modePins modeTable
          rw [if_neg c2, if_neg c2, if_neg c4, if_neg c4, if_pos c5, if_pos c5]
        rw [hr]
        unfold stepMotor
        simp only
        rw [if_neg c2, if_neg c4, if_pos c5, stepMotor5_row]
      · have hr : documentedRow s i = [] := by
          unfold documentedRow modePins modeTable
          rw [if_neg c2, if_neg c2, if_neg c4, if_neg c4, if_neg c5, if_neg c5]
          simp
        rw [hr]
        unfold stepMotor
        simp only
        rw [if_neg c2, if_neg c4, if_neg c5]
        simp


theorem documentedRow_congr (s r : SmoothStepper) (i : Int) (h0 : r.pin_count = s.pin_count)
    (h1 : r.motor_pin_1 = s.motor_pin_1) (h2 : r.motor_pin_2 = s.motor_pin_2)
    (h3 : r.motor_pin_3 = s.motor_pin_3) (h4 : r.motor_pin_4 = s.motor_pin_4)
    (h5 : r.motor_pin_5 = s.motor_pin_5) : documentedRow r i = documentedRow s i := by
  unfold documentedRow modePins modeTable
  rw [h0, h1, h2, h3, h4, h5]

theorem doStep_counters (s : SmoothStepper) :
    (doStep s).step_number
        = (if s.direction = 1 then
            (if s.step_number + 1 = s.number_of_steps then 0 else s.step_number + 1)
          else (if s.step_number = 0 then s.number_of_steps else s.step_number) - 1)
    ∧ (doStep s).number_of_steps = s.number_of_steps
    ∧ (doStep s).pin_count = s.pin_count
    ∧ (doStep s).motor_pin_1 = s.motor_pin_1
    ∧ (doStep s).motor_pin_2 = s.motor_pin_2
    ∧ (doStep s).motor_pin_3 = s.motor_pin_3
    ∧ (doStep s).motor_pin_4 = s.motor_pin_4
    ∧ (doStep s).motor_pin_5 = s.motor_pin_5
    ∧ (doStep s).written
        = s.written ++ documentedRow s (Int.tmod (doStep s).step_number s.pin_count) := by
  unfold doStep
  simp only
  rw [stepMotor_eq_documentedRow]
  split_ifs with h1 h2 h3
  all_goals
    simp only [true_and, and_true, List.append_cancel_left_eq]
    exact documentedRow_congr _ _ _ rfl rfl rfl rfl rfl rfl

theorem stepWrites_eq (s : SmoothStepper) :
    stepWrites s = documentedRow s (Int.tmod (doStep s).step_number s.pin_count) := by
  unfold stepWrites
  rw [(doStep_counters s).2.2.2.2.2.2.2.2]
  simp

theorem doStep_phase (s : SmoothStepper) (pc : Int) (hdiv : pc ∣ s.number_of_steps)
    (h0 : 0 ≤ s.step_number) (h1 : s.step_number < s.number_of_steps) :
    0 ≤ (doStep s).step_number ∧ (doStep s).step_number < s.number_of_steps
    ∧ (doStep s).step_number ≡ s.step_number + (if s.direction = 1 then 1 else -1) [ZMOD pc] := by
  have hz : s.number_of_steps ≡ 0 [ZMOD pc] := (Int.modEq_zero_iff_dvd).mpr hdiv
  rw [(doStep_counters s).1]
  split_ifs with d w w
  · refine ⟨le_refl _, by omega, ?_⟩
    rw [w]; exact hz.symm
  · exact ⟨by omega, by omega, Int.ModEq.refl _⟩
  · refine ⟨by omega, by omega, ?_⟩
    rw [w]
    have := hz.sub_right 1
    simpa using this
  · exact ⟨by omega, by omega, by rw [sub_eq_add_neg]⟩

theorem iterate_doStep_phase (pc : Int) (k : Nat) (s : SmoothStepper)
    (hdiv : pc ∣ s.number_of_steps)
    (h0 : 0 ≤ s.step_number) (h1 : s.step_number < s.number_of_steps) :
    (Nat.iterate doStep k s).direction = s.direction
    ∧ (Nat.iterate doStep k s).number_of_steps = s.number_of_steps
    ∧ (Nat.iterate doStep k s).pin_count = s.pin_count
    ∧ (Nat.iterate doStep k s).motor_pin_1 = s.motor_pin_1
    ∧ (Nat.iterate doStep k s).motor_pin_2 = s.motor_pin_2
    ∧ (Nat.iterate doStep k s).motor_pin_3 = s.motor_pin_3
    ∧ (Nat.iterate doStep k s).motor_pin_4 = s.motor_pin_4
    ∧ (Nat.iterate doStep k s).motor_pin_5 = s.motor_pin_5
    ∧ 0 ≤ (Nat.iterate doStep k s).step_number
    ∧ (Nat.iterate doStep k s).step_number < s.number_of_steps
    ∧ (Nat.iterate doStep k s).step_number
        ≡ s.step_number + (k : Int) * (if s.direction = 1 then 1 else -1) [ZMOD pc] := by
  induction k with
  | zero => simp [h0, h1, Int.ModEq.refl]
  | succ k ih =>
    obtain ⟨a1, a2, a3, a4, a5, a6, a7, a8, a9, a10, a11⟩ := ih
    rw [Function.iterate_succ_apply']
    obtain ⟨c1, c2, c3, c4, c5, c6, c7, c8, _⟩ := doStep_counters (Nat.iterate doStep k s)
    obtain ⟨p1, p2, p3⟩ := doStep_phase (Nat.iterate doStep k s) pc (by rw [a2]; exact hdiv) a9
      (by rw [a2]; exact a10)
    refine ⟨((doStep_frame _).1).trans a1, c2.trans a2, c3.trans a3, c4.trans a4, c5.trans a5,
      c6.trans a6, c7.trans a7, c8.trans a8, p1, by rw [← a2]; exact p2, ?_⟩
    rw [a1] at p3
    have := p3.trans (a11.add_right _)
    refine this.trans ?_
    push_cast
    rw [add_mul, one_mul, add_assoc]

theorem stepWrites_periodic (s : SmoothStepper) (P : Nat) (hpc : 0 < s.pin_count)
    (hP : s.pin_count ∣ (P : Int)) (hdiv : s.pin_count ∣ s.number_of_steps)
    (h0 : 0 ≤ s.step_number) (h1 : s.step_number < s.number_of_steps) :
    stepWrites (Nat.iterate doStep P s) = stepWrites s := by
  obtain ⟨a1, a2, a3, a4, a5, a6, a7, a8, a9, a10, a11⟩ :=
    iterate_doStep_phase s.pin_count P s hdiv h0 h1
  obtain ⟨p1, _, p3⟩ := doStep_phase (Nat.iterate doStep P s) s.pin_count
    (by rw [a2]; exact hdiv) a9 (by rw [a2]; exact a10)
  obtain ⟨q1, _, q3⟩ := doStep_phase s s.pin_count hdiv h0 h1
  rw [stepWrites_eq, stepWrites_eq, a3,
    documentedRow_congr s (Nat.iterate doStep P s) _ a3 a4 a5 a6 a7 a8]
  congr 1
  rw [Int.tmod_eq_emod p1 hpc.le, Int.tmod_eq_emod q1 hpc.le]
  rw [a1] at p3
  have hPz : (P : Int) * (if s.direction = 1 then 1 else -1) ≡ 0 [ZMOD s.pin_count] :=
    (Int.modEq_zero_iff_dvd).mpr (Dvd.dvd.mul_right hP _)
  have e1 := p3.trans (a11.add_right _)
  have e2 : s.step_number + (P : Int) * (if s.direction = 1 then 1 else -1)
      + (if s.direction = 1 then 1 else -1)
      ≡ s.step_number + (if s.direction = 1 then 1 else -1) [ZMOD s.pin_count] := by
    have := (hPz.add_left s.step_number).add_right (if s.direction = 1 then (1 : Int) else -1)
    simpa using this
  exact (e1.trans e2).trans q3.symm

theorem pastTarget_direction (m : SmoothStepper) (h : PastTarget m) :
    m.direction ≠ 0 ∧ isArrived m = 1 := by
  obtain ⟨_, _, _, _, hd⟩ := h
  have hd0 : m.direction ≠ 0 := by
    rcases hd with ⟨h1, _⟩ | ⟨_, h0, _⟩
    · rw [h1]; decide
    · exact h0
  refine ⟨hd0, ?_⟩
  unfold isArrived
  rw [if_neg]
  intro hc
  exact hd0 hc.2.1

theorem stopMove_pastTarget (s : SmoothStepper) (t1 t2 : Nat) (hs : s.smoothActivated = false)
    (hd : s.direction ≠ 0) (h0 : s.steps_to_move = 0) (hv : s.newSpeed ≠ s.vmin) :
    PastTarget (drain (stopMove s) t1 t2)
    ∧ (drain (stopMove s) t1 t2).step_to_be = s.current_step
    ∧ (drain (stopMove s) t1 t2).current_step = s.current_step
    ∧ (drain (stopMove s) t1 t2).direction = s.direction := by
  have e : drain (stopMove s) t1 t2
      = { s with step_to_be := s.current_step, steps_to_move := 0, stopping := true,
                 start_time := 0, newDelay := 1 / s.vmin } := by
    have e1 : drain (stopMove s) t1 t2
        = restartRamp { s with step_to_be := s.current_step, steps_to_move := 0,
                               stopping := true } t1 t2 := by
      simp [drain, stopMove, h0, calculStrategy, hv, hs, hd]
    rw [e1]
    exact restartRamp_of_not_smooth
      { s with step_to_be := s.current_step, steps_to_move := 0, stopping := true } t1 t2 hs
  rw [e]
  refine ⟨⟨hs, rfl, rfl, hv, ?_⟩, rfl, rfl, rfl⟩
  by_cases h1 : s.direction = 1
  · exact Or.inl ⟨h1, le_refl _⟩
  · exact Or.inr ⟨h1, hd, le_refl _⟩

theorem iterate_pastTarget (m : SmoothStepper) (last : Nat) (c : Ticks) (h : PastTarget m) :
    PastTarget (iterate { motor := m, last_step_time := last } c).motor
    ∧ (iterate { motor := m, last_step_time := last } c).motor.direction = m.direction
    ∧ (iterate { motor := m, last_step_time := last } c).motor.step_to_be = m.step_to_be
    ∧ (m.direction = 1 →
        m.current_step ≤ (iterate { motor := m, last_step_time := last } c).motor.current_step)
    ∧ (m.direction ≠ 1 →
        (iterate { motor := m, last_step_time := last } c).motor.current_step
          ≤ m.current_step) := by
  obtain ⟨hs, hst, h0, hv, hd⟩ := h
  have hdr : drain m c.drain1 c.drain2 = m := by
    unfold drain; simp [h0]
  obtain ⟨f1, f2, f3, f4, _, f6, f7, f8, _, f10⟩ := doStep_frame m
  have hne : (doStep m).step_to_be ≠ (doStep m).current_step := by
    rw [f7, f10]
    rcases hd with ⟨h1, h2⟩ | ⟨h1, _, h2⟩
    · rw [if_pos h1]; omega
    · rw [if_neg h1]; omega
  have hafter : afterStep (doStep m) c.post1 c.post2
      = { doStep m with newDelay := 1 / (doStep m).vmin } := by
    unfold afterStep
    have hc : ¬ ((doStep m).newSpeed = (doStep m).vmin
        ∨ ((doStep m).smoothActivated = false ∧ (doStep m).step_to_be = (doStep m).current_step)) := by
      rintro (k | ⟨_, k⟩)
      · rw [f3, f4] at k; exact hv k
      · exact hne k
    rw [if_pos (f2.trans hst), if_neg hc,
      calculateDelay_of_not_smooth _ _ (f6.trans hs)]
  unfold iterate
  simp only
  rw [hdr]
  split_ifs with c1 c2
  · simp only
    rw [hafter]
    refine ⟨⟨f6.trans hs, f2.trans hst, f8.trans h0, ?_, ?_⟩, f1, f7, ?_, ?_⟩
    · simp only; rw [f3, f4]; exact hv
    · simp only
      rw [f1, f7, f10]
      rcases hd with ⟨h1, h2⟩ | ⟨h1, h3, h2⟩
      · left; rw [if_pos h1]; exact ⟨h1, by omega⟩
      · right; rw [if_neg h1]; exact ⟨h1, h3, by omega⟩
    · intro h1; simp only; rw [f10, if_pos h1]; omega
    · intro h1; simp only; rw [f10, if_neg h1]; omega
  · exact ⟨⟨hs, hst, h0, hv, hd⟩, rfl, rfl, fun _ => le_refl _, fun _ => le_refl _⟩
  · exact ⟨⟨hs, hst, h0, hv, hd⟩, rfl, rfl, fun _ => le_refl _, fun _ => le_refl _⟩

theorem run_pastTarget (cs : List Ticks) (m : SmoothStepper) (last : Nat) (h : PastTarget m) :
    PastTarget (run { motor := m, last_step_time := last } cs).motor
    ∧ (run { motor := m, last_step_time := last } cs).motor.direction = m.direction
    ∧ (run { motor := m, last_step_time := last } cs).motor.step_to_be = m.step_to_be
    ∧ (m.direction = 1 →
        m.current_step ≤ (run { motor := m, last_step_time := last } cs).motor.current_step)
    ∧ (m.direction ≠ 1 →
        (run { motor := m, last_step_time := last } cs).motor.current_step
          ≤ m.current_step) := by
  induction cs generalizing m last with
  | nil => exact ⟨h, rfl, rfl, fun _ => le_refl _, fun _ => le_refl _⟩
  | cons c cs ih =>
    obtain ⟨i1, i2, i3, i4, i5⟩ := iterate_pastTarget m last c h
    obtain ⟨r1, r2, r3, r4, r5⟩ := ih (iterate { motor := m, last_step_time := last } c).motor
      (iterate { motor := m, last_step_time := last } c).last_step_time i1
    refine ⟨r1, r2.trans i2, r3.trans i3, ?_, ?_⟩
    · intro h1; exact le_trans (i4 h1) (r4 (i2.trans h1))
    · intro h1; exact le_trans (r5 (by rw [i2]; exact h1)) (i5 h1)

theorem truncToInt_of_nonneg (q : ℚ) (h : 0 ≤ q) : truncToInt q = ⌊q⌋ := by
  unfold truncToInt
  rw [Rat.floor_def, Int.tdiv_eq_ediv (Rat.num_nonneg.mpr h) (by exact_mod_cast Nat.zero_le _)]

theorem one_le_truncToInt (q : ℚ) (h : 1 ≤ q) : 1 ≤ truncToInt q := by
  rw [truncToInt_of_nonneg q (le_trans zero_le_one h)]
  exact Int.le_floor.mpr (by exact_mod_cast h)

theorem restartRamp_deccelerationAtStep (m : SmoothStepper) (t1 t2 : Nat) :
    (restartRamp m t1 t2).deccelerationAtStep = m.deccelerationAtStep := by
  have h1 : (calculateStartTime m t1).2.deccelerationAtStep = m.deccelerationAtStep := by
    unfold calculateStartTime
    simp only
    split_ifs <;> rfl
  have h2 : ∀ r : SmoothStepper, (calculateDelay r t2).2.deccelerationAtStep
      = r.deccelerationAtStep := by
    intro r
    unfold calculateDelay
    simp only
    split_ifs <;> rfl
  unfold restartRamp
  simp only
  rw [h2]
  exact h1

theorem planLeg_forward (m : SmoothStepper) (n : Int) (hs : m.smoothActivated = true)
    (hd : m.direction = 1) (hn : n = m.step_to_be - m.current_step) (hpos : 0 < n)
    (hacc : 0 < m.acc) (h0 : 0 ≤ m.current_speed) (h2 : m.current_speed ≤ m.vmax)
    (hsvv : 1 ≤ m.stepVmaxToVmin) :
    m.current_step ≤ (planLeg m n).deccelerationAtStep
    ∧ (planLeg m n).deccelerationAtStep < m.step_to_be := by
  have hns : ¬ m.smoothActivated = false := by rw [hs]; decide
  have hnd : ¬ m.direction = -1 := by rw [hd]; decide
  have hT : 0 ≤ (m.vmax - m.current_speed) / m.acc := div_nonneg (by linarith) hacc.le
  have hq : (1 : ℚ) ≤ m.acc / 2 * ((m.vmax - m.current_speed) / m.acc) ^ 2
      + m.current_speed * ((m.vmax - m.current_speed) / m.acc) + 1 := by
    have a1 : 0 ≤ m.acc / 2 * ((m.vmax - m.current_speed) / m.acc) ^ 2 :=
      mul_nonneg (by linarith) (sq_nonneg _)
    have a2 : 0 ≤ m.current_speed * ((m.vmax - m.current_speed) / m.acc) := mul_nonneg h0 hT
    linarith
  have hstv := one_le_truncToInt _ hq
  unfold planLeg
  rw [if_neg hns]
  simp only
  generalize truncToInt (m.acc / 2 * ((m.vmax - m.current_speed) / m.acc) ^ 2
      + m.current_speed * ((m.vmax - m.current_speed) / m.acc) + 1) = stv at hstv ⊢
  generalize truncToInt (-m.acc / 2 * ((m.vmin - m.current_speed) / -m.acc) ^ 2
      + m.current_speed * ((m.vmin - m.current_speed) / -m.acc) + 1) = sv
  have e1 : |n| = n := abs_of_pos hpos
  have e2 : |stv| = stv := abs_of_pos (by omega)
  have e3 : |m.stepVmaxToVmin| = m.stepVmaxToVmin := abs_of_pos (by omega)
  have e4 : 0 ≤ |sv| := abs_nonneg sv
  rw [e1, e2, e3]
  generalize |sv| = x at e4 ⊢
  split_ifs with c1 c2 c3
  all_goals simp only [hd, hnd, if_true, if_false]
  · omega
  · omega
  · omega
  · have hx : 0 ≤ n - x := by omega
    rw [Int.tdiv_eq_ediv hx (by decide), abs_of_nonneg (Int.ediv_nonneg hx (by decide))]
    omega

theorem planLeg_reverse (m : SmoothStepper) (n : Int) (hs : m.smoothActivated = true)
    (hd : m.direction = -1) (hn : n = m.step_to_be - m.current_step) (hneg : n < 0)
    (hacc : 0 < m.acc) (h0 : 0 ≤ m.current_speed) (h2 : m.current_speed ≤ m.vmax)
    (hsvv : 1 ≤ m.stepVmaxToVmin) :
    m.step_to_be < (planLeg m n).deccelerationAtStep
    ∧ (planLeg m n).deccelerationAtStep ≤ m.current_step := by
  have hns : ¬ m.smoothActivated = false := by rw [hs]; decide
  have hnd : ¬ m.direction = 1 := by rw [hd]; decide
  have hT : 0 ≤ (m.vmax - m.current_speed) / m.acc := div_nonneg (by linarith) hacc.le
  have hq : (1 : ℚ) ≤ m.acc / 2 * ((m.vmax - m.current_speed) / m.acc) ^ 2
      + m.current_speed * ((m.vmax - m.current_speed) / m.acc) + 1 := by
    have a1 : 0 ≤ m.acc / 2 * ((m.vmax - m.current_speed) / m.acc) ^ 2 :=
      mul_nonneg (by linarith) (sq_nonneg _)
    have a2 : 0 ≤ m.current_speed * ((m.vmax - m.current_speed) / m.acc) := mul_nonneg h0 hT
    linarith
  have hstv := one_le_truncToInt _ hq
  unfold planLeg
  rw [if_neg hns]
  simp only
  generalize truncToInt (m.acc / 2 * ((m.vmax - m.current_speed) / m.acc) ^ 2
      + m.current_speed * ((m.vmax - m.current_speed) / m.acc) + 1) = stv at hstv ⊢
  generalize truncToInt (-m.acc / 2 * ((m.vmin - m.current_speed) / -m.acc) ^ 2
      + m.current_speed * ((m.vmin - m.current_speed) / -m.acc) + 1) = sv
  have e1 : |n| = -n := abs_of_neg hneg
  have e2 : |stv| = stv := abs_of_pos (by omega)
  have e3 : |m.stepVmaxToVmin| = m.stepVmaxToVmin := abs_of_pos (by omega)
  have e4 : 0 ≤ |sv| := abs_nonneg sv
  rw [e1, e2, e3]
  generalize |sv| = x at e4 ⊢
  split_ifs with c1 c2 c3
  all_goals simp only [hd, hnd, if_true, if_false]
  · omega
  · omega
  · omega
  · have hx : 0 ≤ -n - x := by omega
    rw [Int.tdiv_eq_ediv hx (by decide), abs_of_nonneg (Int.ediv_nonneg hx (by decide))]
    omega


/-! ## C1: relative moves compose -/

/-- C1: for every motor state and all deltas `a`, `b`, `step(a)` followed by `step(b)` gives
exactly the state of a single `step(a + b)`, hence the same state (and the same `step_to_be`)
after the loop's next drain; the accumulated `steps_to_move` also agrees when every sum,
including the caller's `a + b`, is reduced to 32 bits. -/
theorem step_step_eq_step_add (s : SmoothStepper) (a b : Int) :
    step (step s a) b = step s (a + b)
    ∧ (∀ t1 t2 : Nat, drain (step (step s a) b) t1 t2 = drain (step s (a + b)) t1 t2)
    ∧ (∀ t1 t2 : Nat, (drain (step (step s a) b) t1 t2).step_to_be
        = (drain (step s (a + b)) t1 t2).step_to_be)
    ∧ wrap32 (step { s with steps_to_move := wrap32 (step s a).steps_to_move } b).steps_to_move
        = wrap32 (step s (wrap32 (a + b))).steps_to_move := by
  have h : step (step s a) b = step s (a + b) := by
    simp only [step, add_assoc]
  refine ⟨h, ?_, ?_, ?_⟩
  · intro t1 t2; rw [h]
  · intro t1 t2; rw [h]
  · simp only [step]
    rw [wrap32_add_left, wrap32_add_right, add_assoc]

/-! ## C2: absolute move -/

/-- C2: for every motor state with `steps_to_move == 0` and every target `n`, after
`absolutePosition(n)` and the loop's drain, `step_to_be == n` and `steps_to_move == 0`; the
drain does run the replan (`calculStrategy`) on the state whose target is `n`. -/
theorem absolutePosition_then_drain (s : SmoothStepper) (n : Int) (t1 t2 : Nat)
    (h : s.steps_to_move = 0) :
    (drain (absolutePosition s n) t1 t2).step_to_be = n
    ∧ (drain (absolutePosition s n) t1 t2).steps_to_move = 0
    ∧ drain (absolutePosition s n) t1 t2
        = calculStrategy { s with step_to_be := n, steps_to_move := 0 } t1 t2 := by
  refine ⟨?_, (drain_step_to_be _ t1 t2).2.1, ?_⟩
  · rw [(drain_step_to_be _ t1 t2).1]
    simp [absolutePosition, h]
  · simp [drain, absolutePosition, h]

/-- C2 at the example motor and the target 500 of the example sketch. -/
theorem absolutePosition_then_drain_witness :
    configuredMotor.steps_to_move = 0
    ∧ (drain (absolutePosition configuredMotor 500) 7 9).step_to_be = 500
    ∧ (drain (absolutePosition configuredMotor 500) 7 9).steps_to_move = 0 :=
  ⟨by decide!, (absolutePosition_then_drain configuredMotor 500 7 9 (by decide!)).1,
    (absolutePosition_then_drain configuredMotor 500 7 9 (by decide!)).2.1⟩

/-! ## C3: absolute move against relative move -/

/-- C3, refuted as stated: on a motor at step 400 whose leg toward step 500 is still in flight,
`absolutePosition(1000)` drains to `step_to_be == 1000` while `step(1000 - current_step)`
drains to `step_to_be == 1100`. -/
theorem absolute_vs_relative_in_flight :
    inFlightMotor.steps_to_move = 0
    ∧ (drain (absolutePosition inFlightMotor 1000) 7 9).step_to_be = 1000
    ∧ (drain (step inFlightMotor (1000 - inFlightMotor.current_step)) 7 9).step_to_be = 1100
    ∧ (drain (absolutePosition inFlightMotor 1000) 7 9).step_to_be
        ≠ (drain (step inFlightMotor (1000 - inFlightMotor.current_step)) 7 9).step_to_be := by
  have h0 : inFlightMotor.steps_to_move = 0 := by decide!
  have hb : inFlightMotor.step_to_be = 500 := rfl
  have hc : inFlightMotor.current_step = 400 := rfl
  have ha : (drain (absolutePosition inFlightMotor 1000) 7 9).step_to_be = 1000 := by
    rw [(drain_step_to_be _ 7 9).1]
    simp [absolutePosition, h0]
  have hr : (drain (step inFlightMotor (1000 - inFlightMotor.current_step)) 7 9).step_to_be
      = 1100 := by
    rw [(drain_step_to_be _ 7 9).1]
    simp [step, h0, hb, hc]
  refine ⟨h0, ha, hr, ?_⟩
  rw [ha, hr]
  decide

/-- C3, amended: for every motor state with `steps_to_move == 0` and every target `t`,
`absolutePosition(t)` followed by the drain yields `step_to_be == t`, while
`step(t - current_step)` followed by the drain yields `t + (step_to_be - current_step)`; the
two agree when no distance remains (`step_to_be == current_step`). -/
theorem absolutePosition_vs_relative (s : SmoothStepper) (t : Int) (t1 t2 u1 u2 : Nat)
    (h : s.steps_to_move = 0) :
    (drain (absolutePosition s t) t1 t2).step_to_be = t
    ∧ (drain (step s (t - s.current_step)) u1 u2).step_to_be
        = t + (s.step_to_be - s.current_step)
    ∧ (s.step_to_be = s.current_step →
        (drain (absolutePosition s t) t1 t2).step_to_be
          = (drain (step s (t - s.current_step)) u1 u2).step_to_be) := by
  have ha : (drain (absolutePosition s t) t1 t2).step_to_be = t := by
    rw [(drain_step_to_be _ t1 t2).1]
    simp [absolutePosition, h]
  have hr : (drain (step s (t - s.current_step)) u1 u2).step_to_be
      = t + (s.step_to_be - s.current_step) := by
    rw [(drain_step_to_be _ u1 u2).1]
    simp only [step, h]
    ring
  refine ⟨ha, hr, ?_⟩
  intro hb
  rw [ha, hr, hb]
  ring

/-- C3 (amended) at the idle example motor and the target 500. -/
theorem absolutePosition_vs_relative_witness :
    configuredMotor.steps_to_move = 0
    ∧ configuredMotor.step_to_be = configuredMotor.current_step
    ∧ (drain (absolutePosition configuredMotor 500) 7 9).step_to_be
        = (drain (step configuredMotor (500 - configuredMotor.current_step)) 11 13).step_to_be :=
  ⟨by decide!, by decide!,
    (absolutePosition_vs_relative configuredMotor 500 7 9 11 13 (by decide!)).2.2 (by decide!)⟩

/-! ## C4: stop -/

/-- C4: `stopMove()` sets `step_to_be` to `current_step - 1` and adds 1 to `steps_to_move`,
without looking at `direction`; for a smoothing-enabled motor that is moving
(`direction != 0`, `steps_to_move == 0`, `newSpeed != vmin`) the drain and replan that follow
leave `step_to_be` equal to the position at the time of the call, set `stopping = true` and
leave `direction` unchanged. -/
theorem stopMove_then_replan (s : SmoothStepper) :
    ((stopMove s).step_to_be = s.current_step - 1
      ∧ (stopMove s).steps_to_move = s.steps_to_move + 1
      ∧ (stopMove s).current_step = s.current_step
      ∧ (stopMove s).direction = s.direction)
    ∧ ∀ t1 t2 : Nat, s.smoothActivated = true → s.direction ≠ 0 → s.steps_to_move = 0 →
        s.newSpeed ≠ s.vmin →
        (drain (stopMove s) t1 t2).step_to_be = s.current_step
        ∧ (drain (stopMove s) t1 t2).current_step = s.current_step
        ∧ (drain (stopMove s) t1 t2).steps_to_move = 0
        ∧ (drain (stopMove s) t1 t2).stopping = true
        ∧ (drain (stopMove s) t1 t2).direction = s.direction := by
  refine ⟨⟨rfl, rfl, rfl, rfl⟩, ?_⟩
  intro t1 t2 hs hd h0 hv
  have hd' : drain (stopMove s) t1 t2
      = restartRamp { s with step_to_be := s.current_step, steps_to_move := 0,
                             stopping := true } t1 t2 := by
    simp [drain, stopMove, h0, calculStrategy, hv, hs, hd]
  obtain ⟨a1, a2, a3, a4, a5, _⟩ := restartRamp_frame
    { s with step_to_be := s.current_step, steps_to_move := 0, stopping := true } t1 t2
  rw [hd']
  exact ⟨a1, a2, a3, a5, a4⟩

/-- C4 at a motor stopped at step 400 of a leg toward step 500. -/
theorem stopMove_then_replan_witness :
    inFlightMotor.smoothActivated = true ∧ inFlightMotor.direction ≠ 0
    ∧ inFlightMotor.steps_to_move = 0 ∧ inFlightMotor.newSpeed ≠ inFlightMotor.vmin
    ∧ (drain (stopMove inFlightMotor) 7 9).step_to_be = inFlightMotor.current_step
    ∧ (drain (stopMove inFlightMotor) 7 9).stopping = true
    ∧ (drain (stopMove inFlightMotor) 7 9).direction = inFlightMotor.direction :=
  ⟨by decide!, by decide!, by decide!, by decide!,
    ((stopMove_then_replan inFlightMotor).2 7 9 (by decide!) (by decide!) (by decide!)
      (by decide!)).1,
    ((stopMove_then_replan inFlightMotor).2 7 9 (by decide!) (by decide!) (by decide!)
      (by decide!)).2.2.2.1,
    ((stopMove_then_replan inFlightMotor).2 7 9 (by decide!) (by decide!) (by decide!)
      (by decide!)).2.2.2.2⟩

/-! ## C5: validation of the acceleration parameters -/

/-- C5: `accelerationEnable(minSpeed, maxSpeed, rampTime)` returns `false` if and only if at
least one of the three parameters is `<= 0`; it succeeds for `(3, 15, 500)` and
`(1, 15, 1000)` and fails for `(0, 15, 500)`. -/
theorem accelerationEnable_fails_iff (s : SmoothStepper) (minSpeed maxSpeed : ℚ)
    (rampTime : Int) :
    ((accelerationEnable s minSpeed maxSpeed rampTime).1 = false
        ↔ (minSpeed ≤ 0 ∨ maxSpeed ≤ 0 ∨ rampTime ≤ 0))
    ∧ (accelerationEnable s 3 15 500).1 = true
    ∧ (accelerationEnable s 1 15 1000).1 = true
    ∧ (accelerationEnable s 0 15 500).1 = false := by
  refine ⟨accelerationEnable_fst s minSpeed maxSpeed rampTime, ?_, ?_, ?_⟩
  · rw [← Bool.not_eq_false, accelerationEnable_fst]
    norm_num
  · rw [← Bool.not_eq_false, accelerationEnable_fst]
    norm_num
  · rw [accelerationEnable_fst]
    norm_num

/-! ## C6: a rejected configuration still marks the motor smoothing-enabled -/

/-- C6, evaluated on the code: `accelerationEnable(0, 15, 500)` is rejected, yet the motor,
unconfigured before the call (or in constant-speed mode after `accelerationDisable(15)`), has
`smoothActivated == true` afterwards, so the state is not left unchanged. -/
theorem accelerationEnable_rejection_not_atomic :
    exampleMotor.smoothActivated = false
    ∧ (accelerationEnable exampleMotor 0 15 500).1 = false
    ∧ (accelerationEnable exampleMotor 0 15 500).2.smoothActivated = true
    ∧ (accelerationEnable exampleMotor 0 15 500).2 ≠ exampleMotor
    ∧ (accelerationDisable exampleMotor 15).smoothActivated = false
    ∧ (accelerationEnable (accelerationDisable exampleMotor 15) 0 15 500).1 = false
    ∧ (accelerationEnable (accelerationDisable exampleMotor 15) 0 15 500).2.smoothActivated
        = true := by
  have h1 : (accelerationEnable exampleMotor 0 15 500).1 = false := by
    rw [accelerationEnable_fst]; norm_num
  have h2 : (accelerationEnable (accelerationDisable exampleMotor 15) 0 15 500).1 = false := by
    rw [accelerationEnable_fst]; norm_num
  have h3 : (accelerationEnable exampleMotor 0 15 500).2.smoothActivated = true := by
    rw [accelerationEnable_rejected _ _ _ _ h1]
  refine ⟨rfl, h1, h3, ?_, ?_, h2, ?_⟩
  · intro h
    rw [h] at h3
    exact absurd h3 (by decide)
  · simp [accelerationDisable]
  · rw [accelerationEnable_rejected _ _ _ _ h2]

/-! ## C7: kinematic parameters -/

/-- C7, refuted as stated: `accelerationEnable(15, 3, 500)` succeeds on the 2048-step example
motor and leaves `vmin = 64/125 > vmax = 64/625` with a negative `acc`. -/
theorem accelerationEnable_min_above_max :
    0 < exampleMotor.number_of_steps
    ∧ (accelerationEnable exampleMotor 15 3 500).1 = true
    ∧ (accelerationEnable exampleMotor 15 3 500).2.vmin = 64 / 125
    ∧ (accelerationEnable exampleMotor 15 3 500).2.vmax = 64 / 625
    ∧ (accelerationEnable exampleMotor 15 3 500).2.acc = -(64 / 78125)
    ∧ ¬ ((accelerationEnable exampleMotor 15 3 500).2.vmin
          < (accelerationEnable exampleMotor 15 3 500).2.vmax)
    ∧ ¬ (0 < (accelerationEnable exampleMotor 15 3 500).2.acc) := by
  decide!

/-- C7, amended: after every successful `accelerationEnable(minSpeed, maxSpeed, rampTime)` on a
motor with `number_of_steps > 0`, `vmin = minSpeed*number_of_steps/60000`,
`vmax = maxSpeed*number_of_steps/60000`, `acc = (vmax - vmin)/rampTime`, `vmin` and `vmax` are
strictly positive, smoothing is enabled, and `vmin < vmax` as well as `acc > 0` hold exactly
when `minSpeed < maxSpeed`. -/
theorem accelerationEnable_kinematics (s : SmoothStepper) (minSpeed maxSpeed : ℚ)
    (rampTime : Int) (hn : 0 < s.number_of_steps)
    (hok : (accelerationEnable s minSpeed maxSpeed rampTime).1 = true) :
    (accelerationEnable s minSpeed maxSpeed rampTime).2.vmin
        = minSpeed * (s.number_of_steps : ℚ) / 60000
    ∧ (accelerationEnable s minSpeed maxSpeed rampTime).2.vmax
        = maxSpeed * (s.number_of_steps : ℚ) / 60000
    ∧ (accelerationEnable s minSpeed maxSpeed rampTime).2.acc
        = ((accelerationEnable s minSpeed maxSpeed rampTime).2.vmax
            - (accelerationEnable s minSpeed maxSpeed rampTime).2.vmin) / (rampTime : ℚ)
    ∧ 0 < (accelerationEnable s minSpeed maxSpeed rampTime).2.vmin
    ∧ 0 < (accelerationEnable s minSpeed maxSpeed rampTime).2.vmax
    ∧ ((accelerationEnable s minSpeed maxSpeed rampTime).2.vmin
          < (accelerationEnable s minSpeed maxSpeed rampTime).2.vmax ↔ minSpeed < maxSpeed)
    ∧ (0 < (accelerationEnable s minSpeed maxSpeed rampTime).2.acc ↔ minSpeed < maxSpeed)
    ∧ (accelerationEnable s minSpeed maxSpeed rampTime).2.smoothActivated = true := by
  have hrej : ¬ (minSpeed ≤ 0 ∨ maxSpeed ≤ 0 ∨ rampTime ≤ 0) := by
    rw [← accelerationEnable_fst s, hok]
    decide
  have hmin : 0 < minSpeed := by
    by_contra h; exact hrej (Or.inl (not_lt.mp h))
  have hmax : 0 < maxSpeed := by
    by_contra h; exact hrej (Or.inr (Or.inl (not_lt.mp h)))
  have hramp : (0 : ℚ) < (rampTime : ℚ) := by
    have : 0 < rampTime := by
      by_contra h; exact hrej (Or.inr (Or.inr (not_lt.mp h)))
    exact_mod_cast this
  have hnq : (0 : ℚ) < (s.number_of_steps : ℚ) := by exact_mod_cast hn
  obtain ⟨e1, e2, e3, e4⟩ := accelerationEnable_fields s minSpeed maxSpeed rampTime hok
  have hlt : minSpeed * (s.number_of_steps : ℚ) / 60 / 1000
      < maxSpeed * (s.number_of_steps : ℚ) / 60 / 1000 ↔ minSpeed < maxSpeed := by
    constructor
    · intro h
      by_contra hc
      have hc' : maxSpeed ≤ minSpeed := not_lt.mp hc
      have : maxSpeed * (s.number_of_steps : ℚ) / 60 / 1000
          ≤ minSpeed * (s.number_of_steps : ℚ) / 60 / 1000 := by
        have := mul_le_mul_of_nonneg_right hc' hnq.le
        linarith
      linarith
    · intro h
      have := mul_lt_mul_of_pos_right h hnq
      linarith
  refine ⟨?_, ?_, ?_, ?_, ?_, ?_, ?_, e4⟩
  · rw [e1]; ring
  · rw [e2]; ring
  · rw [e3, e1, e2]
  · rw [e1]; positivity
  · rw [e2]; positivity
  · rw [e1, e2]; exact hlt
  · rw [e3, ← hlt]
    constructor
    · intro h
      have := (div_pos_iff_of_pos_right hramp).mp h
      linarith
    · intro h
      exact div_pos (by linarith) hramp

/-- C7 (amended) at the configuration `(3, 15, 500)` of the example sketches. -/
theorem accelerationEnable_kinematics_witness :
    0 < exampleMotor.number_of_steps
    ∧ (accelerationEnable exampleMotor 3 15 500).1 = true
    ∧ (accelerationEnable exampleMotor 3 15 500).2.vmin
        = 3 * (exampleMotor.number_of_steps : ℚ) / 60000
    ∧ (accelerationEnable exampleMotor 3 15 500).2.vmin
        < (accelerationEnable exampleMotor 3 15 500).2.vmax :=
  ⟨by decide, by decide!,
    (accelerationEnable_kinematics exampleMotor 3 15 500 (by decide) (by decide!)).1,
    (accelerationEnable_kinematics exampleMotor 3 15 500 (by decide)
      (by decide!)).2.2.2.2.2.1.mpr (by norm_num)⟩

/-! ## C8: reversal safety -/

/-- C8, refuted as stated: on the high-speed motor, `step(100)` followed by `step(-100)` before
the first step leads to a replan with `direction == 1`, remaining distance zero and
`newSpeed == vmin`; it returns at once and `stopping` stays `false`. -/
theorem replan_at_zero_distance_keeps_stopping_false :
    reversedBeforeFirstStep.smoothActivated = true
    ∧ reversedBeforeFirstStep.direction = 1
    ∧ reversedBeforeFirstStep.step_to_be - reversedBeforeFirstStep.current_step = 0
    ∧ reversedBeforeFirstStep.newSpeed = reversedBeforeFirstStep.vmin
    ∧ reversedBeforeFirstStep.stopping = false
    ∧ drain (step legPlanned.motor (-100)) 700 700
        = calculStrategy reversedBeforeFirstStep 700 700
    ∧ (calculStrategy reversedBeforeFirstStep 700 700).direction = 1
    ∧ (calculStrategy reversedBeforeFirstStep 700 700).stopping = false
    ∧ ¬ ((calculStrategy reversedBeforeFirstStep 700 700).stopping = true) := by
  decide!

/-- C8, amended: with smoothing enabled and `direction != 0`, no replan changes `direction`;
one loop iteration either keeps `direction` or executes a step after which `stopping` is true
and `newSpeed == vmin`, sets `direction = 0` and replans from there; a replan whose remaining
distance is opposite to `direction`, or zero with `newSpeed != vmin`, sets `stopping = true`
and keeps `direction`; a replan at zero distance with `newSpeed == vmin` changes nothing. -/
theorem reversal_safety (s : SmoothStepper) (hs : s.smoothActivated = true)
    (hd : s.direction ≠ 0) :
    (∀ t1 t2 : Nat, (calculStrategy s t1 t2).direction = s.direction)
    ∧ (∀ (last : Nat) (c : Ticks),
        (iterate { motor := s, last_step_time := last } c).motor.direction = s.direction
        ∨ (stepDue (drain s c.drain1 c.drain2) c.now last
            ∧ (doStep (drain s c.drain1 c.drain2)).direction = s.direction
            ∧ (doStep (drain s c.drain1 c.drain2)).stopping = true
            ∧ (doStep (drain s c.drain1 c.drain2)).newSpeed
                = (doStep (drain s c.drain1 c.drain2)).vmin
            ∧ (iterate { motor := s, last_step_time := last } c).motor
                = calculStrategy { doStep (drain s c.drain1 c.drain2) with direction := 0 }
                    c.post1 c.post2))
    ∧ (∀ t1 t2 : Nat,
        ((s.step_to_be - s.current_step) * s.direction < 0
          ∨ (s.step_to_be - s.current_step = 0 ∧ s.newSpeed ≠ s.vmin)) →
        (calculStrategy s t1 t2).stopping = true
        ∧ (calculStrategy s t1 t2).direction = s.direction)
    ∧ (∀ t1 t2 : Nat, s.step_to_be - s.current_step = 0 → s.newSpeed = s.vmin →
        calculStrategy s t1 t2 = s) := by
  refine ⟨fun t1 t2 => calculStrategy_direction_of_smooth s t1 t2 hs hd, ?_, ?_, ?_⟩
  · intro last c
    obtain ⟨dd, ds⟩ := drain_direction_of_smooth s c.drain1 c.drain2 hs hd
    obtain ⟨e1, _, _, _, _, e6, _⟩ := doStep_frame (drain s c.drain1 c.drain2)
    unfold iterate
    simp only
    split_ifs with h1 h2
    · rcases afterStep_direction_of_smooth (doStep (drain s c.drain1 c.drain2)) c.post1 c.post2
        (e6.trans ds) with h | ⟨k1, k2, k3⟩
      · left; rw [h, e1, dd]
      · right; exact ⟨h2, e1.trans dd, k1, k2, k3⟩
    · left; exact dd
    · left; exact dd
  · intro t1 t2 h
    refine ⟨?_, calculStrategy_direction_of_smooth s t1 t2 hs hd⟩
    have hsm : ¬ s.smoothActivated = false := by rw [hs]; decide
    unfold calculStrategy
    simp only
    split_ifs with c1 c2 c3 c4
    · exfalso
      rcases h with h | h
      · rw [c1.1] at h; simp at h
      · exact h.2 c1.2
    · exfalso; rcases c2 with ⟨_, k | k⟩
      · exact hd k
      · exact hsm k
    · exfalso; rcases c3 with ⟨_, k | k⟩
      · exact hd k
      · exact hsm k
    · exfalso
      rcases h with h | h
      · rcases c4 with ⟨k1, k2⟩ | ⟨k1, k2⟩
        · rw [k2] at h; omega
        · rw [k2] at h; omega
      · rcases c4 with ⟨k1, _⟩ | ⟨k1, _⟩
        · omega
        · omega
    · exact (restartRamp_frame { s with stopping := true } t1 t2).2.2.2.2.1
  · intro t1 t2 h1 h2
    unfold calculStrategy
    simp only
    rw [if_pos ⟨h1, h2⟩]

/-- C8 (amended) on a motor travelling forward at step 400 whose target moved to -1000. -/
theorem reversal_safety_witness :
    reversingMotor.smoothActivated = true ∧ reversingMotor.direction ≠ 0
    ∧ (reversingMotor.step_to_be - reversingMotor.current_step) * reversingMotor.direction < 0
    ∧ (calculStrategy reversingMotor 7 9).stopping = true
    ∧ (calculStrategy reversingMotor 7 9).direction = reversingMotor.direction :=
  ⟨by decide!, by decide!, by decide!,
    (reversal_safety reversingMotor (by decide!) (by decide!)).2.2.1 7 9 (Or.inl (by decide!))⟩

/-! ## C9: speed bound -/

/-- C9: with smoothing enabled and `0 < vmin <= vmax`, for every clock reading, `start_time`
and `stopping` flag, `calculateDelay` leaves `vmin <= newSpeed <= vmax` and returns
`1/newSpeed`, a delay in `[1/vmax, 1/vmin]`; and in every run of the task (first replan, then
loop iterations interleaved with commands) every `current_speed` recorded by `doStep` lies in
`[vmin, vmax]`. -/
theorem speed_bound (s : SmoothStepper) (hs : s.smoothActivated = true) (hpos : 0 < s.vmin)
    (hle : s.vmin ≤ s.vmax) :
    (∀ (micros : Nat) (start_time : Int) (stopping : Bool),
        s.vmin ≤ (calculateDelay { s with start_time := start_time, stopping := stopping }
                    micros).2.newSpeed
        ∧ (calculateDelay { s with start_time := start_time, stopping := stopping }
              micros).2.newSpeed ≤ s.vmax
        ∧ (calculateDelay { s with start_time := start_time, stopping := stopping } micros).1
            = 1 / (calculateDelay { s with start_time := start_time, stopping := stopping }
                    micros).2.newSpeed
        ∧ 1 / s.vmax
            ≤ (calculateDelay { s with start_time := start_time, stopping := stopping } micros).1
        ∧ (calculateDelay { s with start_time := start_time, stopping := stopping } micros).1
            ≤ 1 / s.vmin)
    ∧ (∀ (t1 t2 : Nat) (es : List Event) (c : Ticks),
        s.vmin ≤ (doStep (drain (exec (start s t1 t2) es).motor c.drain1 c.drain2)).current_speed
        ∧ (doStep (drain (exec (start s t1 t2) es).motor c.drain1 c.drain2)).current_speed
            ≤ s.vmax) := by
  constructor
  · intro micros st sp
    obtain ⟨b1, b2, b3⟩ :=
      calculateDelay_bounds { s with start_time := st, stopping := sp } micros hs hle
    simp only at b1 b2
    refine ⟨b1, b2, b3, ?_, ?_⟩
    · rw [b3]
      exact one_div_le_one_div_of_le (lt_of_lt_of_le hpos b1) b2
    · rw [b3]
      exact one_div_le_one_div_of_le hpos b1
  · intro t1 t2 es c
    have h0 : SpeedInv s.vmin s.vmax (start s t1 t2).motor :=
      calculStrategy_speedInv s t1 t2 hs hle
    have h1 := exec_speedInv s.vmin s.vmax hle es _ h0
    have h2 := drain_speedInv s.vmin s.vmax hle _ c.drain1 c.drain2 h1
    exact (doStep_speedInv s.vmin s.vmax _ h2).2

/-- C9 at the configured example motor: one delay computation and the first step of a run. -/
theorem speed_bound_witness :
    configuredMotor.smoothActivated = true ∧ 0 < configuredMotor.vmin
    ∧ configuredMotor.vmin ≤ configuredMotor.vmax
    ∧ configuredMotor.vmin
        ≤ (calculateDelay { configuredMotor with start_time := 0, stopping := false }
            250000).2.newSpeed
    ∧ (doStep (drain (exec (start configuredMotor 0 0) [Event.call (Command.step 100)]).motor
          500 500)).current_speed ≤ configuredMotor.vmax :=
  ⟨by decide!, by decide!, by decide!,
    ((speed_bound configuredMotor (by decide!) (by decide!) (by decide!)).1 250000 0 false).1,
    ((speed_bound configuredMotor (by decide!) (by decide!) (by decide!)).2 0 0
      [Event.call (Command.step 100)] ⟨500, 500, 600, 0, 0⟩).2⟩

/-! ## C10: the position moves by one per step -/

/-- C10: for every state, `doStep` changes `current_step` by exactly `+1` when `direction == 1`
and by exactly `-1` otherwise, so `|current_step' - current_step| == 1`; and one iteration of
the step loop changes `current_step` by at most 1 in absolute value. -/
theorem position_moves_by_one (s : SmoothStepper) :
    (doStep s).current_step
        = (if s.direction = 1 then s.current_step + 1 else s.current_step - 1)
    ∧ |(doStep s).current_step - s.current_step| = 1
    ∧ ∀ (last : Nat) (c : Ticks),
        |(iterate { motor := s, last_step_time := last } c).motor.current_step
            - s.current_step| ≤ 1 := by
  have h := (doStep_frame s).2.2.2.2.2.2.2.2.2
  refine ⟨h, ?_, ?_⟩
  · rw [h]
    split_ifs
    · simp
    · simp
  · intro last c
    rw [iterate_current_step]
    split_ifs <;> simp

/-! ## C11: idle is a fixed point of the loop -/

/-- C11: from every state in which the motor is not moving (`step_to_be == current_step`,
`direction == 0`, `steps_to_move == 0`), one iteration of the step loop, for every clock
reading, leaves the whole object (so `current_step`, every other field and the log of pin
writes) and `last_step_time` unchanged; by induction the same holds over any number of
iterations, so `current_step` never changes while no command is issued. -/
theorem idle_fixed_point (s : SmoothStepper) (last : Nat)
    (hb : s.step_to_be = s.current_step) (hd : s.direction = 0) (h0 : s.steps_to_move = 0) :
    (∀ c : Ticks,
        iterate { motor := s, last_step_time := last } c
          = { motor := s, last_step_time := last })
    ∧ (∀ c : Ticks,
        (iterate { motor := s, last_step_time := last } c).motor.current_step = s.current_step
        ∧ (iterate { motor := s, last_step_time := last } c).motor.written = s.written)
    ∧ (∀ cs : List Ticks,
        run { motor := s, last_step_time := last } cs = { motor := s, last_step_time := last })
    ∧ (∀ cs : List Ticks,
        (run { motor := s, last_step_time := last } cs).motor.current_step = s.current_step) := by
  have h1 : ∀ c : Ticks, iterate { motor := s, last_step_time := last } c
      = { motor := s, last_step_time := last } := fun c => iterate_idle s last c hb hd h0
  have h2 : ∀ cs : List Ticks, run { motor := s, last_step_time := last } cs
      = { motor := s, last_step_time := last } := by
    intro cs
    induction cs with
    | nil => rfl
    | cons c cs ih => rw [run, h1 c, ih]
  refine ⟨h1, ?_, h2, ?_⟩
  · intro c; rw [h1 c]; exact ⟨rfl, rfl⟩
  · intro cs; rw [h2 cs]

/-- C11 on the example motor at rest at step 500, over two loop iterations. -/
theorem idle_fixed_point_witness :
    arrivedAt500.step_to_be = arrivedAt500.current_step ∧ arrivedAt500.direction = 0
    ∧ arrivedAt500.steps_to_move = 0
    ∧ (run { motor := arrivedAt500, last_step_time := 0 }
        [⟨10, 20, 30, 40, 50⟩, ⟨20000, 20010, 20020, 20030, 20040⟩]).motor.current_step = 500 :=
  ⟨by decide!, by decide!, by decide!,
    (idle_fixed_point arrivedAt500 0 (by decide!) (by decide!) (by decide!)).2.2.2
      [⟨10, 20, 30, 40, 50⟩, ⟨20000, 20010, 20020, 20030, 20040⟩]⟩

/-! ## C12: constant-speed cadence -/

/-- C12: with smoothing disabled, `calculateDelay` returns exactly `1/vmin` for every current
position, target and clock reading and leaves the object unchanged; every replan
(`calculStrategy`) that does not take the idle early return stores `1/vmin` in `newDelay`;
this is the state `accelerationDisable` leaves. -/
theorem constant_speed_cadence (s : SmoothStepper) (h : s.smoothActivated = false) :
    (∀ micros : Nat, calculateDelay s micros = (1 / s.vmin, s))
    ∧ (∀ (current target : Int) (micros : Nat),
        (calculateDelay { s with current_step := current, step_to_be := target } micros).1
          = 1 / s.vmin)
    ∧ (∀ t1 t2 : Nat, ¬ (s.step_to_be - s.current_step = 0 ∧ s.newSpeed = s.vmin) →
        (calculStrategy s t1 t2).newDelay = 1 / s.vmin)
    ∧ (∀ (speed : ℚ) (micros : Nat),
        calculateDelay (accelerationDisable s speed) micros
          = (1 / (accelerationDisable s speed).vmin, accelerationDisable s speed)) := by
  refine ⟨?_, ?_, ?_, fun speed micros => calculateDelay_of_not_smooth _ micros
    (accelerationDisable_smoothActivated s speed)⟩
  · intro micros
    unfold calculateDelay
    simp [h]
  · intro cur tgt micros
    unfold calculateDelay
    simp [h]
  · intro t1 t2 hne
    unfold calculStrategy
    simp only
    rw [if_neg hne]
    have key : ∀ m : SmoothStepper, m.smoothActivated = false → m.vmin = s.vmin →
        (restartRamp m t1 t2).newDelay = 1 / s.vmin := by
      intro m hm hv
      rw [restartRamp_of_not_smooth m t1 t2 hm, ← hv]
    have leg : ∀ m : SmoothStepper, m.smoothActivated = false → m.vmin = s.vmin →
        (restartRamp (planLeg m (s.step_to_be - s.current_step)) t1 t2).newDelay
          = 1 / s.vmin := by
      intro m hm hv
      obtain ⟨_, _, _, _, b5, b6, _⟩ := planLeg_frame m (s.step_to_be - s.current_step)
      exact key _ (b5.trans hm) (b6.trans hv)
    split_ifs
    · exact leg _ h rfl
    · exact leg _ h rfl
    · exact leg _ h rfl
    · exact key _ h rfl

/-- C12 on the motor of the advanced example after `accelerationDisable(15)`. -/
theorem constant_speed_cadence_witness :
    constantSpeedMotor.smoothActivated = false
    ∧ calculateDelay constantSpeedMotor 123456 = (1 / constantSpeedMotor.vmin, constantSpeedMotor)
    ∧ (calculStrategy { constantSpeedMotor with step_to_be := 300 } 7 9).newDelay
        = 1 / constantSpeedMotor.vmin :=
  ⟨by decide!, (constant_speed_cadence constantSpeedMotor (by decide!)).1 123456,
    (constant_speed_cadence { constantSpeedMotor with step_to_be := 300 } (by decide!)).2.2.1 7 9
      (by decide!)⟩

/-! ## C13: switching to constant-speed mode -/

/-- C13: after `accelerationDisable(speed)`, `smoothActivated` is false, `acc == 0`,
`current_speed == vmin`, and `vmin` is `0.1` when `speed == 0` and
`speed*number_of_steps/60000` otherwise; for every `speed >= 0` and `number_of_steps > 0` the
resulting `vmin` and the cadence `1/vmin` are strictly positive. -/
theorem accelerationDisable_constant_speed (s : SmoothStepper) (speed : ℚ) :
    (accelerationDisable s speed).smoothActivated = false
    ∧ (accelerationDisable s speed).acc = 0
    ∧ (accelerationDisable s speed).current_speed = (accelerationDisable s speed).vmin
    ∧ (accelerationDisable s speed).vmin
        = (if speed = 0 then 1 / 10 else speed * (s.number_of_steps : ℚ) / 60000)
    ∧ (0 ≤ speed → 0 < s.number_of_steps →
        0 < (accelerationDisable s speed).vmin ∧ 0 < 1 / (accelerationDisable s speed).vmin) := by
  have hv : (accelerationDisable s speed).vmin
      = (if speed = 0 then 1 / 10 else speed * (s.number_of_steps : ℚ) / 60000) := by
    unfold accelerationDisable
    simp only
    split_ifs with h
    · rfl
    · simp only
      ring
  refine ⟨?_, ?_, ?_, hv, ?_⟩
  · unfold accelerationDisable; simp only; split_ifs <;> rfl
  · unfold accelerationDisable; simp only
  · unfold accelerationDisable; simp only
  · intro h0 hn
    have hnq : (0 : ℚ) < (s.number_of_steps : ℚ) := by exact_mod_cast hn
    have hpos : 0 < (accelerationDisable s speed).vmin := by
      rw [hv]
      split_ifs with h
      · norm_num
      · have hs : 0 < speed := lt_of_le_of_ne h0 (Ne.symm h)
        positivity
    exact ⟨hpos, one_div_pos.mpr hpos⟩

/-- C13 on the example motor with `accelerationDisable(15)`. -/
theorem accelerationDisable_constant_speed_witness :
    (0 : ℚ) ≤ 15 ∧ 0 < exampleMotor.number_of_steps
    ∧ (accelerationDisable exampleMotor 15).vmin = 64 / 125
    ∧ 0 < (accelerationDisable exampleMotor 15).vmin
    ∧ 0 < 1 / (accelerationDisable exampleMotor 15).vmin :=
  ⟨by norm_num, by decide, by decide!,
    ((accelerationDisable_constant_speed exampleMotor 15).2.2.2.2 (by norm_num) (by decide)).1,
    ((accelerationDisable_constant_speed exampleMotor 15).2.2.2.2 (by norm_num) (by decide)).2⟩

/-! ## C14: `isArrived` reports motion -/

/-- C14: `isArrived()` returns a non-zero value if and only if `step_to_be != current_step`, or
`direction != 0`, or `steps_to_move != 0`; it returns 0 exactly when the three idle conditions
hold, and its only values are 0 and 1.  The member contains no assignment, so its embedding has
no state to return. -/
theorem isArrived_nonzero_iff_moving (s : SmoothStepper) :
    (isArrived s ≠ 0
        ↔ (s.step_to_be ≠ s.current_step ∨ s.direction ≠ 0 ∨ s.steps_to_move ≠ 0))
    ∧ (isArrived s = 0
        ↔ (s.step_to_be = s.current_step ∧ s.direction = 0 ∧ s.steps_to_move = 0))
    ∧ (isArrived s = 0 ∨ isArrived s = 1) := by
  unfold isArrived
  split_ifs with h
  · refine ⟨?_, ?_, Or.inl rfl⟩
    · constructor
      · intro k; exact absurd rfl k
      · intro k; exfalso; tauto
    · exact ⟨fun _ => h, fun _ => rfl⟩
  · refine ⟨?_, ?_, Or.inr rfl⟩
    · constructor
      · intro _; tauto
      · intro _; decide
    · constructor
      · intro k; exact absurd k (by decide)
      · intro k; exact absurd k h

/-! ## C15: `isArrived` against its documentation -/

/-- C15, evaluated on the code: on a motor that has arrived (at rest at step 500) `isArrived()`
returns 0, not the documented 1, and on a motor in the middle of a leg it returns 1, not the
documented 0. -/
theorem isArrived_inverts_documented_value :
    arrivedAt500.step_to_be = arrivedAt500.current_step ∧ arrivedAt500.direction = 0
    ∧ arrivedAt500.steps_to_move = 0
    ∧ isArrived arrivedAt500 = 0
    ∧ ¬ (isArrived arrivedAt500 = 1)
    ∧ inFlightMotor.step_to_be ≠ inFlightMotor.current_step
    ∧ isArrived inFlightMotor = 1
    ∧ ¬ (isArrived inFlightMotor = 0) := by
  decide!

/-! ## C16: position read-back -/

/-- C16, evaluated on the code: on a motor with 200 steps per revolution at step 2100,
`whatStepNumber()` returns `2100 % 2048 = 52` instead of `2100 % 200 = 100`, while
`whatRotationNumber()` returns 10, so the two do not recompose to `current_step`. -/
theorem whatStepNumber_hardcodes_2048 :
    0 < motor200At2100.number_of_steps
    ∧ motor200At2100.current_step = 2100
    ∧ whatStepNumber motor200At2100 = 52
    ∧ Int.tmod motor200At2100.current_step motor200At2100.number_of_steps = 100
    ∧ whatStepNumber motor200At2100
        ≠ Int.tmod motor200At2100.current_step motor200At2100.number_of_steps
    ∧ whatRotationNumber motor200At2100 = 10
    ∧ whatRotationNumber motor200At2100 * motor200At2100.number_of_steps
          + whatStepNumber motor200At2100 = 2052
    ∧ whatRotationNumber motor200At2100 * motor200At2100.number_of_steps
          + whatStepNumber motor200At2100 ≠ motor200At2100.current_step := by
  decide

/-! ## C17: return to origin, revolutions included -/

/-- C17: for every idle motor (`step_to_be == current_step`, `steps_to_move == 0`,
`direction == 0`) at any position, `goToOrigin(true)` followed by the loop's drain leaves
`step_to_be == 0` and `steps_to_move == 0`, and neither changes `current_step`. -/
theorem goToOrigin_with_rotations (s : SmoothStepper) (t1 t2 : Nat)
    (hb : s.step_to_be = s.current_step) (h0 : s.steps_to_move = 0) (_hd : s.direction = 0) :
    (drain (goToOrigin s true) t1 t2).step_to_be = 0
    ∧ (drain (goToOrigin s true) t1 t2).steps_to_move = 0
    ∧ (goToOrigin s true).current_step = s.current_step
    ∧ (goToOrigin s true).steps_to_move = -s.current_step
    ∧ (drain (goToOrigin s true) t1 t2).current_step = s.current_step := by
  obtain ⟨a1, a2, a3⟩ := drain_step_to_be (goToOrigin s true) t1 t2
  have e1 : (goToOrigin s true).step_to_be = s.current_step := by
    simp [goToOrigin, hb]
  have e2 : (goToOrigin s true).steps_to_move = -s.current_step := by
    simp [goToOrigin, h0]
  have e3 : (goToOrigin s true).current_step = s.current_step := by
    simp [goToOrigin]
  refine ⟨?_, a2, e3, e2, a3.trans e3⟩
  rw [a1, e1, e2]
  ring

/-- C17 on the example motor at rest at step 500. -/
theorem goToOrigin_with_rotations_witness :
    arrivedAt500.step_to_be = arrivedAt500.current_step ∧ arrivedAt500.steps_to_move = 0
    ∧ arrivedAt500.direction = 0
    ∧ (drain (goToOrigin arrivedAt500 true) 7 9).step_to_be = 0
    ∧ (drain (goToOrigin arrivedAt500 true) 7 9).steps_to_move = 0 :=
  ⟨by decide!, by decide!, by decide!,
    (goToOrigin_with_rotations arrivedAt500 7 9 (by decide!) (by decide!) (by decide!)).1,
    (goToOrigin_with_rotations arrivedAt500 7 9 (by decide!) (by decide!) (by decide!)).2.1⟩

/-! ## C18: return to origin, revolutions excluded -/

/-- C18, evaluated on the code: on an idle motor with 200 steps per revolution at step 2100,
`goToOrigin(false)` subtracts `2100 % 2048 = 52` instead of `2100 % 200 = 100`, and the drain
leaves `step_to_be == 2048`, which is not a whole number of revolutions. -/
theorem goToOrigin_without_rotations_hardcodes_2048 :
    0 < motor200At2100.number_of_steps
    ∧ motor200At2100.step_to_be = motor200At2100.current_step
    ∧ motor200At2100.direction = 0 ∧ motor200At2100.steps_to_move = 0
    ∧ (goToOrigin motor200At2100 false).steps_to_move = -52
    ∧ Int.tmod motor200At2100.current_step motor200At2100.number_of_steps = 100
    ∧ (drain (goToOrigin motor200At2100 false) 7 9).step_to_be = 2048
    ∧ Int.tmod (drain (goToOrigin motor200At2100 false) 7 9).step_to_be
        motor200At2100.number_of_steps = 48
    ∧ Int.tmod (drain (goToOrigin motor200At2100 false) 7 9).step_to_be
        motor200At2100.number_of_steps ≠ 0 := by
  decide!

/-! ## C19: origin round trip -/

/-- C19: for every idle motor state, whatever its position, `setOrigin()` returns and sets
`current_step` to 0 (nothing else), so that `whatStepNumber() == 0` and
`whatRotationNumber() == 0` on the resulting state. -/
theorem setOrigin_round_trip (s : SmoothStepper)
    (hb : s.step_to_be = s.current_step) (hd : s.direction = 0) (h0 : s.steps_to_move = 0) :
    setOrigin s = some { s with current_step := 0 }
    ∧ ∀ r : SmoothStepper, setOrigin s = some r →
        r.current_step = 0 ∧ whatStepNumber r = 0 ∧ whatRotationNumber r = 0 := by
  have e : setOrigin s = some { s with current_step := 0 } := by
    have ha : isArrived s = 0 := by
      unfold isArrived
      rw [if_pos ⟨hb, hd, h0⟩]
    unfold setOrigin
    rw [if_pos ha]
  refine ⟨e, ?_⟩
  intro r hr
  rw [e] at hr
  have hr' : r = { s with current_step := 0 } := (Option.some.inj hr).symm
  subst hr'
  refine ⟨rfl, ?_, ?_⟩
  · simp [whatStepNumber]
  · simp [whatRotationNumber]

/-- C19 on the example motor at rest at step 500. -/
theorem setOrigin_round_trip_witness :
    arrivedAt500.step_to_be = arrivedAt500.current_step ∧ arrivedAt500.direction = 0
    ∧ arrivedAt500.steps_to_move = 0 ∧ arrivedAt500.current_step = 500
    ∧ setOrigin arrivedAt500 = some { arrivedAt500 with current_step := 0 }
    ∧ whatStepNumber { arrivedAt500 with current_step := 0 } = 0 :=
  ⟨by decide!, by decide!, by decide!, by decide!,
    (setOrigin_round_trip arrivedAt500 (by decide!) (by decide!) (by decide!)).1,
    ((setOrigin_round_trip arrivedAt500 (by decide!) (by decide!) (by decide!)).2
      { arrivedAt500 with current_step := 0 }
      (setOrigin_round_trip arrivedAt500 (by decide!) (by decide!) (by decide!)).1).2.1⟩

/-! ## C20: phase index -/

/-- C20, evaluated on the code: `doStep` passes `step_number % pin_count` to `stepMotor`.  On a
two-wire motor the second forward step writes row 0 (`01`) again instead of row 2 (`10`), and
four steps write rows 1, 0, 1, 0; on a five-wire motor the step from phase 4 to phase 5 writes
row 0 (`01101`) instead of row 5 (`10010`). -/
theorem doStep_phase_index_modulo_pin_count :
    twoWireForward.pin_count = 2
    ∧ (doStep twoWireForward).step_number = 1
    ∧ (doStep (doStep twoWireForward)).step_number = 2
    ∧ (doStep (doStep twoWireForward)).written
        = [(23, true), (22, true), (23, false), (22, true)]
    ∧ (stepMotor (stepMotor twoWireForward 1) 2).written
        = [(23, true), (22, true), (23, true), (22, false)]
    ∧ (doStep (doStep twoWireForward)).written
        ≠ (stepMotor (stepMotor twoWireForward 1) 2).written
    ∧ (doStep (doStep (doStep (doStep twoWireForward)))).written
        = [(23, true), (22, true), (23, false), (22, true),
           (23, true), (22, true), (23, false), (22, true)]
    ∧ fiveWireForward.pin_count = 5
    ∧ (doStep fiveWireForward).step_number = 5
    ∧ (doStep fiveWireForward).written
        = [(23, false), (22, true), (21, true), (19, false), (18, true)]
    ∧ (stepMotor fiveWireForward 5).written
        = [(23, true), (22, false), (21, false), (19, true), (18, false)]
    ∧ (doStep fiveWireForward).written ≠ (stepMotor fiveWireForward 5).written := by
  decide!

/-! ## C21: phase table fidelity -/

/-- C21: `stepMotor(i)` appends to the log exactly the writes that put row `i + 1` of the
documented commutation table of the motor's wiring mode on pins 1..N (`HIGH` for 1), for
`i = 0..3` with 2 and 4 wires and `i = 0..9` with 5 wires, nothing for any other `i`; it
writes only the pins of that mode and changes no other field. -/
theorem phase_table_fidelity (s : SmoothStepper) (i : Int) :
    stepMotor s i = { s with written := s.written ++ documentedRow s i }
    ∧ (s.pin_count = 2 → 0 ≤ i → i < 4 →
        documentedRow s i
          = List.zip [s.motor_pin_1, s.motor_pin_2] (commutation2.getD i.toNat []))
    ∧ (s.pin_count = 4 → 0 ≤ i → i < 4 →
        documentedRow s i
          = List.zip [s.motor_pin_1, s.motor_pin_2, s.motor_pin_3, s.motor_pin_4]
              (commutation4.getD i.toNat []))
    ∧ (s.pin_count = 5 → 0 ≤ i → i < 10 →
        documentedRow s i
          = List.zip [s.motor_pin_1, s.motor_pin_2, s.motor_pin_3, s.motor_pin_4, s.motor_pin_5]
              (commutation5.getD i.toNat [])) := by
  refine ⟨stepMotor_eq_documentedRow s i, ?_, ?_, ?_⟩
  · intro c2 hi _
    unfold documentedRow modePins modeTable
    rw [if_pos hi, if_pos c2, if_pos c2]
  · intro c4 hi _
    have c2 : ¬ s.pin_count = 2 := by omega
    unfold documentedRow modePins modeTable
    rw [if_pos hi, if_neg c2, if_neg c2, if_pos c4, if_pos c4]
  · intro c5 hi _
    have c2 : ¬ s.pin_count = 2 := by omega
    have c4 : ¬ s.pin_count = 4 := by omega
    unfold documentedRow modePins modeTable
    rw [if_pos hi, if_neg c2, if_neg c2, if_neg c4, if_neg c4, if_pos c5, if_pos c5]

/-- C21 on the five-wire motor, row 6 (`10010`). -/
theorem phase_table_fidelity_witness :
    fiveWireForward.pin_count = 5 ∧ (0 : Int) ≤ 5 ∧ (5 : Int) < 10
    ∧ documentedRow fiveWireForward 5
        = [(23, true), (22, false), (21, false), (19, true), (18, false)]
    ∧ (stepMotor fiveWireForward 5).written
        = [(23, true), (22, false), (21, false), (19, true), (18, false)] :=
  ⟨by decide, by decide, by decide,
    ((phase_table_fidelity fiveWireForward 5).2.2.2 (by decide) (by decide) (by decide)).trans
      (by decide),
    (congrArg SmoothStepper.written (phase_table_fidelity fiveWireForward 5).1).trans
      (by decide)⟩

/-! ## C22: cycle closure -/

/-- C22: for each wiring mode with phase count `P` (4 for 2-wire, 4 for 4-wire, 10 for 5-wire)
and a motor whose `number_of_steps` is a positive multiple of `P` with
`0 <= step_number < number_of_steps`, the output pattern written by a step equals the pattern
written by the step `P` steps later and by the step `2P` steps later in the same direction. -/
theorem cycle_closure (s : SmoothStepper) (P : Nat)
    (hmode : (s.pin_count = 2 ∧ P = 4) ∨ (s.pin_count = 4 ∧ P = 4)
      ∨ (s.pin_count = 5 ∧ P = 10))
    (_hn : 0 < s.number_of_steps) (hdiv : (P : Int) ∣ s.number_of_steps)
    (h0 : 0 ≤ s.step_number) (h1 : s.step_number < s.number_of_steps) :
    stepWrites (Nat.iterate doStep P s) = stepWrites s
    ∧ stepWrites (Nat.iterate doStep (2 * P) s) = stepWrites s := by
  have hpc : 0 < s.pin_count := by
    rcases hmode with ⟨h, _⟩ | ⟨h, _⟩ | ⟨h, _⟩ <;> omega
  have hP : s.pin_count ∣ (P : Int) := by
    rcases hmode with ⟨h, e⟩ | ⟨h, e⟩ | ⟨h, e⟩ <;> rw [h, e] <;> decide
  have hd : s.pin_count ∣ s.number_of_steps := dvd_trans hP hdiv
  refine ⟨stepWrites_periodic s P hpc hP hd h0 h1, ?_⟩
  refine stepWrites_periodic s (2 * P) hpc ?_ hd h0 h1
  push_cast
  exact Dvd.dvd.mul_left hP 2

/-- C22 on the two-wire example motor (2048 steps, `P = 4`). -/
theorem cycle_closure_witness :
    twoWireForward.pin_count = 2 ∧ 0 < twoWireForward.number_of_steps
    ∧ ((4 : Nat) : Int) ∣ twoWireForward.number_of_steps
    ∧ 0 ≤ twoWireForward.step_number
    ∧ twoWireForward.step_number < twoWireForward.number_of_steps
    ∧ stepWrites (Nat.iterate doStep 4 twoWireForward) = stepWrites twoWireForward
    ∧ stepWrites (Nat.iterate doStep (2 * 4) twoWireForward) = stepWrites twoWireForward :=
  ⟨by decide, by decide, by decide, by decide, by decide,
    (cycle_closure twoWireForward 4 (Or.inl ⟨by decide, rfl⟩) (by decide) (by decide)
      (by decide) (by decide)).1,
    (cycle_closure twoWireForward 4 (Or.inl ⟨by decide, rfl⟩) (by decide) (by decide)
      (by decide) (by decide)).2⟩

/-! ## C23: stop in constant-speed mode -/

/-- C23, evaluated on the code: the constant-speed example motor, three steps into a
`step(200)` leg, receives `stopMove()`; the drain sets the target to its position 3, yet three
further due iterations take it to step 6, and over every run of loop iterations `direction`
stays 1, `isArrived()` stays 1 and the position never comes back below 3: the motor never
comes to rest. -/
theorem stopMove_constant_speed_never_arrives :
    constantSpeedRunning.motor.smoothActivated = false
    ∧ constantSpeedRunning.motor.direction = 1
    ∧ constantSpeedRunning.motor.steps_to_move = 0
    ∧ constantSpeedRunning.motor.current_step = 3
    ∧ constantSpeedStopped.motor.step_to_be = 3
    ∧ (run constantSpeedStopped
          [⟨8000, 8000, 8000, 8000, 8000⟩, ⟨10000, 10000, 10000, 10000, 10000⟩,
           ⟨12000, 12000, 12000, 12000, 12000⟩]).motor.current_step = 6
    ∧ (∀ cs : List Ticks,
        (run constantSpeedStopped cs).motor.direction = 1
        ∧ isArrived (run constantSpeedStopped cs).motor = 1
        ∧ 3 ≤ (run constantSpeedStopped cs).motor.current_step) := by
  have hs : constantSpeedRunning.motor.smoothActivated = false := by decide!
  have hd : constantSpeedRunning.motor.direction = 1 := by decide!
  have h0 : constantSpeedRunning.motor.steps_to_move = 0 := by decide!
  have hc : constantSpeedRunning.motor.current_step = 3 := by decide!
  have hv : constantSpeedRunning.motor.newSpeed ≠ constantSpeedRunning.motor.vmin := by decide!
  obtain ⟨p, q1, q2, q3⟩ := stopMove_pastTarget constantSpeedRunning.motor 7000 7000 hs
    (by rw [hd]; decide) h0 hv
  refine ⟨hs, hd, h0, hc, q1.trans hc, by decide!, ?_⟩
  intro cs
  obtain ⟨r1, r2, _, r4, _⟩ := run_pastTarget cs _ 6000 p
  refine ⟨r2.trans (q3.trans hd), (pastTarget_direction _ r1).2, ?_⟩
  have := r4 (q3.trans hd)
  rw [q2, hc] at this
  exact this

/-! ## C24: ramp delay formula -/

/-- C24, refuted as stated: on the configured example motor accelerating from a time origin of
1999 microseconds, at clock 2000 the code uses `t = 2 - 1 = 1` ms and stores
`vmin + acc = 8064/78125`, while the elapsed time `now - start_time` is 0.001 ms (0 whole
milliseconds): neither reading of the specification gives the speed, or the delay, of the code. -/
theorem calculateDelay_elapsed_not_exact :
    rampFrom1999.smoothActivated = true
    ∧ (calculateDelay rampFrom1999 2000).2.newSpeed = 8064 / 78125
    ∧ rampSpeedAt rampFrom1999 (elapsedMsExact rampFrom1999 2000) = 8000064 / 78125000
    ∧ rampSpeedAt rampFrom1999 (elapsedMsWhole rampFrom1999 2000) = 8000 / 78125
    ∧ (calculateDelay rampFrom1999 2000).2.newSpeed
        ≠ rampSpeedAt rampFrom1999 (elapsedMsExact rampFrom1999 2000)
    ∧ (calculateDelay rampFrom1999 2000).2.newSpeed
        ≠ rampSpeedAt rampFrom1999 (elapsedMsWhole rampFrom1999 2000)
    ∧ (calculateDelay rampFrom1999 2000).1
        ≠ 1 / rampSpeedAt rampFrom1999 (elapsedMsExact rampFrom1999 2000) := by
  decide!

/-- C24, amended: with smoothing enabled, `calculateDelay` returns `1/speed` with
`speed = clamp(vmax - acc*t, vmin, vmax)` when stopping and `clamp(vmin + acc*t, vmin, vmax)`
otherwise, where `t = micros()/1000 - start_time/1000` is the difference of the two readings
each truncated to whole milliseconds (as an `unsigned long`); it stores that speed in
`newSpeed` after saving the previous one in `previousSpeed` (and `newDelay` in
`newDelay_last`).  For `0 <= start_time <= now < 2^32` this `t` is within 1 ms of the elapsed
time `now - start_time`. -/
theorem ramp_delay_formula (s : SmoothStepper) (now : Nat) (hs : s.smoothActivated = true) :
    calculateDelay s now
      = (1 / rampSpeedAt s (elapsedMsOfReadings s now),
         { s with newDelay_last := s.newDelay, previousSpeed := s.newSpeed,
                  newSpeed := rampSpeedAt s (elapsedMsOfReadings s now) })
    ∧ (0 ≤ s.start_time → s.start_time ≤ (now : Int) → now < 4294967296 →
        |elapsedMsOfReadings s now - elapsedMsExact s now| < 1) := by
  constructor
  · have hv : ∀ v : ℚ, (if (if v < s.vmin then s.vmin else v) > s.vmax then s.vmax
        else (if v < s.vmin then s.vmin else v)) = min (max v s.vmin) s.vmax := by
      intro v
      by_cases h1 : v < s.vmin
      · rw [if_pos h1, max_eq_right h1.le]
        by_cases h2 : s.vmin > s.vmax
        · rw [if_pos h2, min_eq_right h2.le]
        · rw [if_neg h2, min_eq_left (not_lt.mp h2)]
      · rw [if_neg h1, max_eq_left (not_lt.mp h1)]
        by_cases h2 : v > s.vmax
        · rw [if_pos h2, min_eq_right h2.le]
        · rw [if_neg h2, min_eq_left (not_lt.mp h2)]
    have hR : rampSpeedAt s (elapsedMsOfReadings s now)
        = (if s.stopping = true then
            (if (if -s.acc * elapsedMsOfReadings s now + s.vmax < s.vmin then s.vmin
                  else -s.acc * elapsedMsOfReadings s now + s.vmax) > s.vmax then s.vmax
              else (if -s.acc * elapsedMsOfReadings s now + s.vmax < s.vmin then s.vmin
                  else -s.acc * elapsedMsOfReadings s now + s.vmax))
          else
            (if (if s.acc * elapsedMsOfReadings s now + s.vmin < s.vmin then s.vmin
                  else s.acc * elapsedMsOfReadings s now + s.vmin) > s.vmax then s.vmax
              else (if s.acc * elapsedMsOfReadings s now + s.vmin < s.vmin then s.vmin
                  else s.acc * elapsedMsOfReadings s now + s.vmin))) := by
      unfold rampSpeedAt
      by_cases hst : s.stopping = true
      · rw [if_pos hst, if_pos hst, hv]
        congr 2
        ring
      · rw [if_neg hst, if_neg hst, hv]
        congr 2
        ring
    rw [hR]
    have hns : ¬ s.smoothActivated = false := by rw [hs]; decide
    unfold calculateDelay elapsedMsOfReadings
    rw [if_neg hns]
    simp only
    split_ifs <;> rfl
  · intro h0 h1 h2
    have hb : Int.tdiv s.start_time 1000 = s.start_time / 1000 :=
      Int.tdiv_eq_ediv h0 (by decide)
    have ha : (((now / 1000 : Nat) : Int)) = (now : Int) / 1000 := by
      push_cast; rfl
    have hu : u32 (((now / 1000 : Nat) : Int) - Int.tdiv s.start_time 1000)
        = (now : Int) / 1000 - s.start_time / 1000 := by
      unfold u32
      rw [hb, ha]
      omega
    have key : -1000 < 1000 * ((now : Int) / 1000 - s.start_time / 1000)
          - ((now : Int) - s.start_time)
        ∧ 1000 * ((now : Int) / 1000 - s.start_time / 1000) - ((now : Int) - s.start_time)
          < 1000 := by
      constructor <;> omega
    have k1 : (-1000 : ℚ) < 1000 * (((now : Int) / 1000 - s.start_time / 1000 : Int) : ℚ)
        - (((now : Int) : ℚ) - (s.start_time : ℚ)) := by
      exact_mod_cast key.1
    have k2 : 1000 * (((now : Int) / 1000 - s.start_time / 1000 : Int) : ℚ)
        - (((now : Int) : ℚ) - (s.start_time : ℚ)) < (1000 : ℚ) := by
      exact_mod_cast key.2
    unfold elapsedMsOfReadings elapsedMsExact
    rw [hu, abs_lt]
    have hn : (((now : Int) : ℚ)) = (now : ℚ) := by norm_cast
    rw [hn] at k1 k2
    constructor <;> linarith

/-- C24 (amended) on the ramp of the counterexample. -/
theorem ramp_delay_formula_witness :
    rampFrom1999.smoothActivated = true
    ∧ (calculateDelay rampFrom1999 2000).1
        = 1 / rampSpeedAt rampFrom1999 (elapsedMsOfReadings rampFrom1999 2000)
    ∧ elapsedMsOfReadings rampFrom1999 2000 = 1 :=
  ⟨by decide!,
    (congrArg Prod.fst (ramp_delay_formula rampFrom1999 2000 (by decide!)).1).trans rfl,
    by decide!⟩

/-! ## C25: constant-speed deceleration point -/

/-- C25, evaluated on the code: with smoothing disabled, at step 0 with target -300 the replan
sets `direction = -1` and `deccelerationAtStep = 301` (`current_step - stepToMove + 1`), not
`step_to_be + 1 = -299`; the forward leg to 300 does get `step_to_be - 1 = 299`. -/
theorem constant_speed_reverse_deceleration_point :
    constantSpeedReverseLeg.smoothActivated = false
    ∧ constantSpeedReverseLeg.step_to_be - constantSpeedReverseLeg.current_step = -300
    ∧ (calculStrategy constantSpeedReverseLeg 7 9).direction = -1
    ∧ (calculStrategy constantSpeedReverseLeg 7 9).deccelerationAtStep = 301
    ∧ (calculStrategy constantSpeedReverseLeg 7 9).deccelerationAtStep
        ≠ constantSpeedReverseLeg.step_to_be + 1
    ∧ (calculStrategy constantSpeedForwardLeg 7 9).direction = 1
    ∧ (calculStrategy constantSpeedForwardLeg 7 9).deccelerationAtStep
        = constantSpeedForwardLeg.step_to_be - 1 := by
  decide!

/-! ## C26: idle-direction equivalence -/

/-- C26, refuted as stated: right after the command `step(100)` the task has `direction == 0`
with `steps_to_move == 100`; and after `step(100)`, a loop iteration, `step(-100)` and another
loop iteration the high-speed motor has `step_to_be == current_step` and `steps_to_move == 0`
with `direction == 1`. -/
theorem idle_direction_equivalence_broken :
    commandPending.motor.direction = 0
    ∧ commandPending.motor.steps_to_move = 100
    ∧ ¬ (commandPending.motor.direction = 0
          ↔ (commandPending.motor.step_to_be = commandPending.motor.current_step
              ∧ commandPending.motor.steps_to_move = 0))
    ∧ legCancelled.motor.direction = 1
    ∧ legCancelled.motor.step_to_be = legCancelled.motor.current_step
    ∧ legCancelled.motor.steps_to_move = 0
    ∧ ¬ (legCancelled.motor.direction = 0
          ↔ (legCancelled.motor.step_to_be = legCancelled.motor.current_step
              ∧ legCancelled.motor.steps_to_move = 0)) := by
  decide!

/-- C26, amended: the equivalence holds in the constructed object and is re-established by every
replan from rest: for every state with `direction == 0`, after `calculStrategy`, `direction == 0`
holds if and only if `step_to_be == current_step`, and after the loop's drain of a non-zero
`steps_to_move`, `direction == 0` holds if and only if `step_to_be == current_step` and
`steps_to_move == 0`. -/
theorem idle_direction_after_replan (s : SmoothStepper) (t1 t2 : Nat) (hd : s.direction = 0) :
    ((calculStrategy s t1 t2).direction = 0
        ↔ (calculStrategy s t1 t2).step_to_be = (calculStrategy s t1 t2).current_step)
    ∧ (s.steps_to_move ≠ 0 →
        ((drain s t1 t2).direction = 0
          ↔ ((drain s t1 t2).step_to_be = (drain s t1 t2).current_step
              ∧ (drain s t1 t2).steps_to_move = 0)))
    ∧ (∀ (junk : SmoothStepper) (n p1 p2 p3 p4 : Int),
        (new4 junk n p1 p2 p3 p4).direction = 0
        ∧ (new4 junk n p1 p2 p3 p4).step_to_be = (new4 junk n p1 p2 p3 p4).current_step
        ∧ (new4 junk n p1 p2 p3 p4).steps_to_move = 0) := by
  have key : ∀ m : SmoothStepper, m.direction = 0 →
      ((calculStrategy m t1 t2).direction = 0
        ↔ (calculStrategy m t1 t2).step_to_be = (calculStrategy m t1 t2).current_step) := by
    intro m hm
    obtain ⟨f1, f2, _⟩ := calculStrategy_frame m t1 t2
    rw [f1, f2]
    unfold calculStrategy
    simp only
    split_ifs with c1 c2 c3 c4
    · constructor
      · intro _; omega
      · intro _; exact hm
    · rw [(restartRamp_frame _ t1 t2).2.2.2.1, (planLeg_frame _ _).2.2.2.1]
      constructor
      · intro k; exact absurd k (show ¬ ((1 : Int) = 0) by decide)
      · intro k; omega
    · rw [(restartRamp_frame _ t1 t2).2.2.2.1, (planLeg_frame _ _).2.2.2.1]
      constructor
      · intro k; exact absurd k (show ¬ ((-1 : Int) = 0) by decide)
      · intro k; omega
    · exfalso
      rcases c4 with ⟨_, k⟩ | ⟨_, k⟩
      · rw [hm] at k; exact absurd k (by decide)
      · rw [hm] at k; exact absurd k (by decide)
    · rw [(restartRamp_frame _ t1 t2).2.2.2.1]
      constructor
      · intro _
        have n2 : ¬ (m.step_to_be - m.current_step > 0) := fun k => c2 ⟨k, Or.inl hm⟩
        have n3 : ¬ (m.step_to_be - m.current_step < 0) := fun k => c3 ⟨k, Or.inl hm⟩
        omega
      · intro _; exact hm
  refine ⟨key s hd, ?_, ?_⟩
  · intro hne
    have e : drain s t1 t2
        = calculStrategy
            { s with step_to_be := s.step_to_be + s.steps_to_move, steps_to_move := 0 }
            t1 t2 := by
      unfold drain
      rw [if_pos hne]
    rw [e]
    have h3 := (calculStrategy_frame
      { s with step_to_be := s.step_to_be + s.steps_to_move, steps_to_move := 0 } t1 t2).2.2.1
    have hk := key
      { s with step_to_be := s.step_to_be + s.steps_to_move, steps_to_move := 0 } hd
    constructor
    · intro k
      exact ⟨hk.mp k, h3⟩
    · intro k
      exact hk.mpr k.1
  · intro junk n p1 p2 p3 p4
    exact ⟨rfl, rfl, rfl⟩

/-- C26 (amended) on the task with the pending `step(100)`. -/
theorem idle_direction_after_replan_witness :
    commandPending.motor.direction = 0 ∧ commandPending.motor.steps_to_move ≠ 0
    ∧ ((drain commandPending.motor 7 9).direction = 0
        ↔ ((drain commandPending.motor 7 9).step_to_be
              = (drain commandPending.motor 7 9).current_step
            ∧ (drain commandPending.motor 7 9).steps_to_move = 0)) :=
  ⟨by decide!, by decide!,
    (idle_direction_after_replan commandPending.motor 7 9 (by decide!)).2.1 (by decide!)⟩

/-! ## C27: `setOrigin` and idleness -/

/-- C27, evaluated on the code: on the example motor at rest at step 500, `setOrigin()` sets
`current_step = 0` and leaves `step_to_be == 500`, so `isArrived()` returns 1, the next due
loop iteration executes a step (to position -1, `direction` still being 0) and the motor then
travels forward toward the old target. -/
theorem setOrigin_leaves_old_target :
    arrivedAt500.step_to_be = arrivedAt500.current_step ∧ arrivedAt500.direction = 0
    ∧ arrivedAt500.steps_to_move = 0
    ∧ setOrigin arrivedAt500 = some { arrivedAt500 with current_step := 0 }
    ∧ ({ arrivedAt500 with current_step := 0 } : SmoothStepper).step_to_be = 500
    ∧ isArrived { arrivedAt500 with current_step := 0 } = 1
    ∧ (iterate { motor := { arrivedAt500 with current_step := 0 }, last_step_time := 0 }
          ⟨20000, 20000, 20000, 20000, 20000⟩).motor.current_step = -1
    ∧ (run { motor := { arrivedAt500 with current_step := 0 }, last_step_time := 0 }
          [⟨20000, 20000, 20000, 20000, 20000⟩, ⟨40000, 40000, 40000, 40000, 40000⟩,
           ⟨60000, 60000, 60000, 60000, 60000⟩]).motor.direction = 1 := by
  decide!

/-! ## C28: the deceleration point lies inside the leg -/

/-- C28: with smoothing enabled, `acc > 0`, `0 < vmin <= current_speed <= vmax` and
`stepVmaxToVmin >= 1`, every replan with a non-zero remaining distance whose resulting
`direction` is the sign of that distance sets `deccelerationAtStep` between `current_step`
(inclusive) and `step_to_be` (exclusive) in the direction of travel, in all four cases of the
plan. -/
theorem deceleration_point_inside_leg (s : SmoothStepper) (t1 t2 : Nat)
    (hs : s.smoothActivated = true) (hacc : 0 < s.acc) (hvmin : 0 < s.vmin)
    (h1 : s.vmin ≤ s.current_speed) (h2 : s.current_speed ≤ s.vmax)
    (hsvv : 1 ≤ s.stepVmaxToVmin) :
    (0 < s.step_to_be - s.current_step → (calculStrategy s t1 t2).direction = 1 →
        s.current_step ≤ (calculStrategy s t1 t2).deccelerationAtStep
        ∧ (calculStrategy s t1 t2).deccelerationAtStep < s.step_to_be)
    ∧ (s.step_to_be - s.current_step < 0 → (calculStrategy s t1 t2).direction = -1 →
        s.step_to_be < (calculStrategy s t1 t2).deccelerationAtStep
        ∧ (calculStrategy s t1 t2).deccelerationAtStep ≤ s.current_step) := by
  have hns : ¬ s.smoothActivated = false := by rw [hs]; decide
  have h0 : 0 ≤ s.current_speed := le_trans hvmin.le h1
  constructor
  · intro hpos hdir
    have c1 : ¬ (s.step_to_be - s.current_step = 0 ∧ s.newSpeed = s.vmin) := by
      intro k; omega
    by_cases d0 : s.direction = 0
    · have e : calculStrategy s t1 t2
          = restartRamp (planLeg { s with direction := 1 } (s.step_to_be - s.current_step))
              t1 t2 := by
        unfold calculStrategy
        simp only
        rw [if_neg c1, if_pos ⟨hpos, Or.inl d0⟩]
      rw [e, restartRamp_deccelerationAtStep]
      exact planLeg_forward { s with direction := 1 } _ hs rfl rfl hpos hacc h0 h2 hsvv
    · have c2 : ¬ (s.step_to_be - s.current_step > 0
          ∧ (s.direction = 0 ∨ s.smoothActivated = false)) := by
        rintro ⟨_, k | k⟩
        · exact d0 k
        · exact hns k
      have c3 : ¬ (s.step_to_be - s.current_step < 0
          ∧ (s.direction = 0 ∨ s.smoothActivated = false)) := by
        rintro ⟨k, _⟩; omega
      have d1 : s.direction = 1 := by
        rw [calculStrategy_direction_of_smooth s t1 t2 hs d0] at hdir
        exact hdir
      have e : calculStrategy s t1 t2
          = restartRamp (planLeg s (s.step_to_be - s.current_step)) t1 t2 := by
        unfold calculStrategy
        simp only
        rw [if_neg c1, if_neg c2, if_neg c3, if_pos (Or.inl ⟨hpos, d1⟩)]
      rw [e, restartRamp_deccelerationAtStep]
      exact planLeg_forward s _ hs d1 rfl hpos hacc h0 h2 hsvv
  · intro hneg hdir
    have c1 : ¬ (s.step_to_be - s.current_step = 0 ∧ s.newSpeed = s.vmin) := by
      intro k; omega
    have c2' : ¬ (s.step_to_be - s.current_step > 0) := by omega
    by_cases d0 : s.direction = 0
    · have e : calculStrategy s t1 t2
          = restartRamp (planLeg { s with direction := -1 } (s.step_to_be - s.current_step))
              t1 t2 := by
        unfold calculStrategy
        simp only
        rw [if_neg c1, if_neg (fun k => c2' k.1), if_pos ⟨hneg, Or.inl d0⟩]
      rw [e, restartRamp_deccelerationAtStep]
      exact planLeg_reverse { s with direction := -1 } _ hs rfl rfl hneg hacc h0 h2 hsvv
    · have c3 : ¬ (s.step_to_be - s.current_step < 0
          ∧ (s.direction = 0 ∨ s.smoothActivated = false)) := by
        rintro ⟨_, k | k⟩
        · exact d0 k
        · exact hns k
      have d1 : s.direction = -1 := by
        rw [calculStrategy_direction_of_smooth s t1 t2 hs d0] at hdir
        exact hdir
      have e : calculStrategy s t1 t2
          = restartRamp (planLeg s (s.step_to_be - s.current_step)) t1 t2 := by
        unfold calculStrategy
        simp only
        rw [if_neg c1, if_neg (fun k => c2' k.1), if_neg c3, if_pos (Or.inr ⟨hneg, d1⟩)]
      rw [e, restartRamp_deccelerationAtStep]
      exact planLeg_reverse s _ hs d1 rfl hneg hacc h0 h2 hsvv

/-- C28 on a leg of 2000 steps from rest (the cruise case: 2000 - 154 - 1). -/
theorem deceleration_point_inside_leg_witness :
    longLeg.smoothActivated = true ∧ 0 < longLeg.acc ∧ 0 < longLeg.vmin
    ∧ longLeg.vmin ≤ longLeg.current_speed ∧ longLeg.current_speed ≤ longLeg.vmax
    ∧ 1 ≤ longLeg.stepVmaxToVmin
    ∧ 0 < longLeg.step_to_be - longLeg.current_step
    ∧ (calculStrategy longLeg 7 9).direction = 1
    ∧ (calculStrategy longLeg 7 9).deccelerationAtStep = 1845
    ∧ longLeg.current_step ≤ (calculStrategy longLeg 7 9).deccelerationAtStep
    ∧ (calculStrategy longLeg 7 9).deccelerationAtStep < longLeg.step_to_be :=
  ⟨by decide!, by decide!, by decide!, by decide!, by decide!, by decide!, by decide!,
    by decide!, by decide!,
    ((deceleration_point_inside_leg longLeg 7 9 (by decide!) (by decide!) (by decide!)
      (by decide!) (by decide!) (by decide!)).1 (by decide!) (by decide!)).1,
    ((deceleration_point_inside_leg longLeg 7 9 (by decide!) (by decide!) (by decide!)
      (by decide!) (by decide!) (by decide!)).1 (by decide!) (by decide!)).2⟩

/-! ## C29: step executor round trip -/

/-- C29: for every state with `number_of_steps >= 1` and `0 <= step_number < number_of_steps`,
`doStep` keeps `0 <= step_number < number_of_steps`, and a forward `doStep` followed by a
reverse one, or a reverse one followed by a forward one, restores `step_number` and
`current_step`. -/
theorem doStep_round_trip (s : SmoothStepper) (hn : 1 ≤ s.number_of_steps)
    (h0 : 0 ≤ s.step_number) (h1 : s.step_number < s.number_of_steps) :
    (0 ≤ (doStep s).step_number ∧ (doStep s).step_number < s.number_of_steps)
    ∧ (doStep { doStep { s with direction := 1 } with direction := -1 }).step_number
        = s.step_number
    ∧ (doStep { doStep { s with direction := 1 } with direction := -1 }).current_step
        = s.current_step
    ∧ (doStep { doStep { s with direction := -1 } with direction := 1 }).step_number
        = s.step_number
    ∧ (doStep { doStep { s with direction := -1 } with direction := 1 }).current_step
        = s.current_step := by
  have key : ∀ m : SmoothStepper, (doStep m).step_number
        = (if m.direction = 1 then
            (if m.step_number + 1 = m.number_of_steps then 0 else m.step_number + 1)
          else (if m.step_number = 0 then m.number_of_steps else m.step_number) - 1)
      ∧ (doStep m).number_of_steps = m.number_of_steps
      ∧ (doStep m).current_step
          = (if m.direction = 1 then m.current_step + 1 else m.current_step - 1) :=
    fun m => ⟨(doStep_counters m).1, (doStep_counters m).2.1,
      (doStep_frame m).2.2.2.2.2.2.2.2.2⟩
  have hf : (doStep { s with direction := 1 }).step_number
      = (if s.step_number + 1 = s.number_of_steps then 0 else s.step_number + 1) := by
    rw [(key _).1]; simp
  have hb : (doStep { s with direction := -1 }).step_number
      = (if s.step_number = 0 then s.number_of_steps else s.step_number) - 1 := by
    rw [(key _).1]; simp
  refine ⟨?_, ?_, ?_, ?_, ?_⟩
  · rw [(key s).1]
    split_ifs <;> constructor <;> omega
  · rw [(key _).1]
    simp only [show ¬ ((-1 : Int) = 1) by decide, if_false]
    rw [hf]
    by_cases hc : s.step_number + 1 = s.number_of_steps
    · rw [if_pos hc, if_pos rfl, (key _).2.1]
      simp only
      omega
    · rw [if_neg hc, if_neg (by omega)]
      omega
  · rw [(key _).2.2]
    simp only
    rw [(key _).2.2]
    simp
  · rw [(key _).1]
    simp only [if_true]
    rw [hb, (key _).2.1]
    simp only
    by_cases hc : s.step_number = 0
    · rw [if_pos hc, if_pos (by omega)]
      omega
    · rw [if_neg hc, if_neg (by omega)]
      omega
  · rw [(key _).2.2]
    simp only
    rw [(key _).2.2]
    simp

/-- C29 across the wrap: from phase 2047 forward to 0 and back. -/
theorem doStep_round_trip_witness :
    1 ≤ lastPhaseMotor.number_of_steps ∧ 0 ≤ lastPhaseMotor.step_number
    ∧ lastPhaseMotor.step_number < lastPhaseMotor.number_of_steps
    ∧ (doStep { lastPhaseMotor with direction := 1 }).step_number = 0
    ∧ (doStep { doStep { lastPhaseMotor with direction := 1 } with direction := -1 }).step_number
        = lastPhaseMotor.step_number :=
  ⟨by decide, by decide, by decide, by decide,
    (doStep_round_trip lastPhaseMotor (by decide) (by decide) (by decide)).2.1⟩

end SmoothStepper
